import Mathlib

/-!
# GRASS import workers (`src/providers/grass/qgsgrassimport.cpp`)

A shallow embedding of the three import workers of the GRASS provider
(`QgsGrassRasterImport`, `QgsGrassVectorImport`, `QgsGrassCopy`) and of the
stream they write to the converter module they spawn.

Modelling conventions.

* The collaborators that are not part of the file (raster provider, raster
  iterator and blocks, vector provider, `QgsGrass::startModule`,
  `QgsGrass::copyObject`, the `QGis` enumerations helpers) are parameters:
  fields of the worker's source objects or of `Env`.
* `QDataStream << x` appends one `Item` to the input of the process that is
  currently fed.
* `isCanceled()` reads a flag another thread may set at any time. The value
  seen by the `i`-th read of one `import()` call is `Env.isCanceled i`; the
  run state counts the reads.
* C++ `int` values are `Int`; band and row indices, which only count upwards
  from 1 resp. 0, are `Nat`. Coordinates are integers standing in for doubles.
-/

namespace QgsGrassImport

/-! ## Data model -/

/-- The `QGis::DataType` values, exactly the labels of the `switch` in
`QgsGrassRasterImport::import`. -/
inductive DataType
  | UnknownDataType | Byte | UInt16 | Int16 | UInt32 | Int32 | Float32 | Float64
  | CInt16 | CInt32 | CFloat32 | CFloat64 | ARGB32 | ARGB32_Premultiplied
  deriving DecidableEq, Repr

/-- The `QProcess::ExitStatus` values. -/
inductive ExitStatus
  | NormalExit | CrashExit
  deriving DecidableEq, Repr

/-- A `QgsRectangle`: four bounds. -/
structure QgsRectangle where
  xMinimum : Int
  yMinimum : Int
  xMaximum : Int
  yMaximum : Int
  deriving DecidableEq, Repr

/-- A geometry: its coordinate sequence. -/
abbrev QgsGeometry := List (Int × Int)

/-- A `QgsFeature`: validity flag, optional geometry, attribute values. -/
structure QgsFeature where
  valid : Bool
  geometry : Option QgsGeometry
  attributes : List String
  deriving DecidableEq, Repr

/-- The default constructed `QgsFeature()`: invalid, no geometry, no attributes. -/
def QgsFeature.default : QgsFeature :=
  { valid := false, geometry := none, attributes := [] }

/-- One value written to a `QDataStream` bound to a converter process. -/
inductive Item
  | extent (r : QgsRectangle)
  | int32 (v : Int)
  | bool (b : Bool)
  | bytes (data : List Nat)
  | fields (f : List (String × String))
  | feature (f : QgsFeature)
  deriving DecidableEq, Repr

/-- A row-bytes block (raster) or the record of a valid feature (vector): the
records that carry source data. Cancel flags, header values and the invalid
end-of-pass feature are not payload. -/
def Item.isPayload : Item → Bool
  | Item.bytes _ => true
  | Item.feature f => f.valid
  | _ => false

/-- What the worker reads from a process after `waitForFinished`. -/
structure ProcessExit where
  exitStatus : ExitStatus
  exitCode : Int
  errorString : String
  stdoutString : String
  stderrString : String
  deriving DecidableEq, Repr

/-- A spawned converter module, a black box reached through its streams: its
exit report is a function of the items it was sent. (The boolean the vector
module answers on standard output is read and only logged.) -/
structure QProcess where
  finish : List Item → ProcessExit

/-- A `QgsGrassObject`: the four part identifier of a map. -/
structure QgsGrassObject where
  gisdbase : String
  location : String
  mapset : String
  name : String
  deriving DecidableEq, Repr

/-- A coordinate reference system: validity and identity. -/
structure QgsCoordinateReferenceSystem where
  isValid : Bool
  srsid : Nat
  deriving DecidableEq, Repr

/-- A `QgsRasterBlock` as the row loop uses it: whether `convert` to a type
succeeds, and the bytes `QByteArray::fromRawData( bits( row, 0 ), size )`
holds once the block has that type. -/
structure QgsRasterBlock where
  convert : DataType → Bool
  dataTypeSize : DataType → Int
  bits : DataType → Nat → Int → List Nat

/-- One part delivered by `QgsRasterIterator::readNextRasterPart`. -/
structure RasterPart where
  iterCols : Int
  iterRows : Int
  block : QgsRasterBlock

/-- A `QgsRasterDataProvider`. -/
structure QgsRasterDataProvider where
  isValid : Bool
  bandCount : Int
  dataType : Nat → DataType

/-- A `QgsRasterPipe`: its provider (may be null) and the parts a
`QgsRasterIterator` on its last stage delivers for
`startRasterRead( band, nCols, nRows, extent )` with the given maximum tile
width and height. -/
structure QgsRasterPipe where
  provider : Option QgsRasterDataProvider
  readParts : Nat → Int → Int → Int → Int → QgsRectangle → List RasterPart

/-- A `QgsVectorDataProvider`; `getFeatures i` is the sequence the iterator
of the `i`-th acquisition delivers. -/
structure QgsVectorDataProvider where
  isValid : Bool
  crs : QgsCoordinateReferenceSystem
  geometryType : Int
  fields : List (String × String)
  getFeatures : Nat → List QgsFeature

/-- Everything outside the workers. -/
structure Env where
  /-- Value seen by the `i`-th read of the cancellation flag. -/
  isCanceled : Nat → Bool
  /-- Result of `QgsGrass::qgisGrassModulePath()`. -/
  qgisGrassModulePath : String
  /-- Numeric value of a `QGis::DataType`. -/
  dataTypeCode : DataType → Int
  /-- The call `QgsGrass::startModule( gisdbase, location, mapset, module,
  arguments, gisrcFile )`: a process, or the message of the exception. -/
  startModule : String → String → String → String → List String → Except String QProcess
  /-- Result of `QgsGrass::crsDirect( gisdbase, location )`. -/
  crsDirect : String → String → QgsCoordinateReferenceSystem
  /-- The transform between two reference systems, on a geometry. -/
  transform : QgsCoordinateReferenceSystem → QgsCoordinateReferenceSystem → QgsGeometry → QgsGeometry
  /-- The function `QGis::flatType`. -/
  flatType : Int → Int
  /-- The function `QGis::singleType`. -/
  singleType : Int → Int
  /-- The value `QGis::WKBPolygon`. -/
  WKBPolygon : Int
  /-- The call `QgsGrass::copyObject( src, dest )`: `some` message when it throws. -/
  copyObject : QgsGrassObject → QgsGrassObject → Option String

/-- The record of one process spawned during an `import()` call. -/
structure ProcessLog where
  /-- Band the process was spawned for (0 for the vector module). -/
  band : Nat
  module : String
  arguments : List String
  /-- Items written to its standard input, in order. -/
  input : List Item
  /-- The exit report the worker read, if it waited for the process. -/
  exit : Option ProcessExit
  writeChannelClosed : Bool
  deleted : Bool
  deriving DecidableEq, Repr

/-- State of one `import()` call. -/
structure Run where
  /-- The worker field `mError`. -/
  mError : String
  /-- Number of reads of the cancellation flag so far. -/
  checks : Nat
  /-- Number of calls of `getFeatures` so far. -/
  acquisitions : Nat
  /-- Items written so far to the process currently fed. -/
  out : List Item
  /-- The processes spawned so far, in spawn order. -/
  processes : List ProcessLog
  deriving DecidableEq, Repr

/-- `QgsGrassImport::setError`. -/
def Run.setError (r : Run) (error : String) : Run :=
  { r with mError := error }

/-- `outStream << x`. -/
def Run.write (r : Run) (x : Item) : Run :=
  { r with out := r.out ++ [x] }

/-- `isCanceled()`: the value read, and the state with the read counted. -/
def Run.isCanceled (env : Env) (r : Run) : Bool × Run :=
  (env.isCanceled r.checks, { r with checks := r.checks + 1 })

/-- Records a process with what has been written to it. -/
def Run.record (r : Run) (p : ProcessLog) : Run :=
  { r with processes := r.processes ++ [p], out := [] }

/-- How a loop body left its loop: it ran to the end, hit `break`, or hit
`return false`. -/
inductive LoopExit
  | done | broke | returned
  deriving DecidableEq, Repr

/-! ## QgsGrassRasterImport -/

/-- The worker `QgsGrassRasterImport`. -/
structure QgsGrassRasterImport where
  mGrassObject : QgsGrassObject
  mError : String
  mPipe : Option QgsRasterPipe
  mExtent : QgsRectangle
  mXSize : Int
  mYSize : Int

/-- The `switch` over `provider->dataType( band )`: the output type, or
`none` for the cases that set the error and return. -/
def outType : DataType → Option DataType
  | DataType.Byte => some DataType.Int32
  | DataType.UInt16 => some DataType.Int32
  | DataType.Int16 => some DataType.Int32
  | DataType.UInt32 => some DataType.Int32
  | DataType.Int32 => some DataType.Int32
  | DataType.Float32 => some DataType.Float32
  | DataType.Float64 => some DataType.Float64
  | DataType.ARGB32 => some DataType.Int32
  | DataType.ARGB32_Premultiplied => some DataType.Int32
  | DataType.CInt16 => none
  | DataType.CInt32 => none
  | DataType.CFloat32 => none
  | DataType.CFloat64 => none
  | DataType.UnknownDataType => none

/-- The message `tr( "Data type %1 not supported" ).arg( dataType )`. -/
def notSupported (env : Env) (t : DataType) : String :=
  "Data type " ++ toString (env.dataTypeCode t) ++ " not supported"

/-- The loop `for ( int row = 0; row < iterRows; row++ )` over the rows still
to do. -/
def sendRows (env : Env) (block : QgsRasterBlock) (qgis_out_type : DataType) (iterCols : Int) :
    List Nat → Run → LoopExit × Run
  | [], r => (LoopExit.done, r)
  | row :: rows, r =>
    if block.convert qgis_out_type = false then
      (LoopExit.returned, r.setError "cannot vonvert data type")
    else
      let size := iterCols * block.dataTypeSize qgis_out_type
      let byteArray := block.bits qgis_out_type row size
      if (r.isCanceled env).1 then
        (LoopExit.broke, (r.isCanceled env).2.write (Item.bool true))
      else
        sendRows env block qgis_out_type iterCols rows
          (((r.isCanceled env).2.write (Item.bool false)).write (Item.bytes byteArray))

/-- The loop `while ( iter.readNextRasterPart( ... ) )` over the parts still
to come. -/
def sendParts (env : Env) (qgis_out_type : DataType) : List RasterPart → Run → LoopExit × Run
  | [], r => (LoopExit.done, r)
  | part :: parts, r =>
    match sendRows env part.block qgis_out_type part.iterCols (List.range part.iterRows.toNat) r with
    | (LoopExit.returned, r1) => (LoopExit.returned, r1)
    | (_, r1) =>
      if (r1.isCanceled env).1 then
        (LoopExit.broke, (r1.isCanceled env).2.write (Item.bool true))
      else
        sendParts env qgis_out_type parts (r1.isCanceled env).2

/-- The name of the map written for a band: `mGrassObject.name()`, with
`_<band>` appended when the provider has more than one band. -/
def bandName (w : QgsGrassRasterImport) (provider : QgsRasterDataProvider) (band : Nat) : String :=
  if provider.bandCount > 1 then w.mGrassObject.name ++ ("_" ++ toString band)
  else w.mGrassObject.name

/-- The state after the stream header has been written to a freshly spawned
process: `outStream << mExtent << ( qint32 )mXSize << ( qint32 )mYSize;
outStream << ( qint32 )qgis_out_type;`. -/
def writeRasterHeader (env : Env) (w : QgsGrassRasterImport) (qgis_out_type : DataType)
    (r : Run) : Run :=
  (((({ r with out := [] }.write (Item.extent w.mExtent)).write
    (Item.int32 w.mXSize)).write (Item.int32 w.mYSize)).write
    (Item.int32 (env.dataTypeCode qgis_out_type)))

/-- The parts the iterator delivers for a band: maximum tile width `mXSize`,
maximum tile height `std::max( 1, 5000000 / mXSize )`, read started with
`startRasterRead( band, mXSize, mYSize, mExtent )`. The division truncates as
in C++; for `mXSize = 0`, where the C++ division is undefined, the quotient
here is 0. -/
def bandParts (w : QgsGrassRasterImport) (pipe : QgsRasterPipe) (band : Nat) : List RasterPart :=
  pipe.readParts band w.mXSize (max 1 (Int.tdiv 5000000 w.mXSize)) w.mXSize w.mYSize w.mExtent

/-- The body of the band loop of `QgsGrassRasterImport::import`. The boolean
is `false` when the body executed `return false`. -/
def importBand (env : Env) (w : QgsGrassRasterImport) (pipe : QgsRasterPipe)
    (provider : QgsRasterDataProvider) (band : Nat) (r : Run) : Bool × Run :=
  match outType (provider.dataType band) with
  | none => (false, r.setError (notSupported env (provider.dataType band)))
  | some qgis_out_type =>
    let module := env.qgisGrassModulePath ++ "/qgis.r.in"
    let arguments := ["output=" ++ bandName w provider band]
    match env.startModule w.mGrassObject.gisdbase w.mGrassObject.location w.mGrassObject.mapset
        module arguments with
    | Except.error what => (false, r.setError what)
    | Except.ok process =>
      match sendParts env qgis_out_type (bandParts w pipe band)
          (writeRasterHeader env w qgis_out_type r) with
      | (LoopExit.returned, r1) =>
        -- `delete block; return false;` inside the row loop: the statements from
        -- `process->closeWriteChannel()` to `delete process` are not reached
        (false, r1.record { band := band, module := module, arguments := arguments,
                            input := r1.out, exit := none,
                            writeChannelClosed := false, deleted := false })
      | (_, r1) =>
        -- `closeWriteChannel()`, `waitForFinished( 30000 )`, exit report read;
        -- `delete process` is executed on each of the three ways out below
        let status := process.finish r1.out
        let r2 := r1.record { band := band, module := module, arguments := arguments,
                              input := r1.out, exit := some status,
                              writeChannelClosed := true, deleted := true }
        if status.exitStatus ≠ ExitStatus.NormalExit then
          (false, r2.setError status.errorString)
        else if status.exitCode ≠ 0 then
          (false, r2.setError status.stderrString)
        else
          (true, r2)

/-- The loop `for ( int band = 1; band <= provider->bandCount(); band++ )`
over the bands still to do, and the `return true` after it. The loop is run
on the bands `1, ..., bandCount` (none when `bandCount ≤ 0`); `bandCount()` is
a getter with a fixed value. -/
def importBands (env : Env) (w : QgsGrassRasterImport) (pipe : QgsRasterPipe)
    (provider : QgsRasterDataProvider) : List Nat → Run → Bool × Run
  | [], r => (true, r)
  | band :: bands, r =>
    match importBand env w pipe provider band r with
    | (false, r1) => (false, r1)
    | (true, r1) => importBands env w pipe provider bands r1

/-- The state in which an `import()` call starts. -/
def Run.start (mError : String) : Run :=
  { mError := mError, checks := 0, acquisitions := 0, out := [], processes := [] }

/-- `QgsGrassRasterImport::import`: the returned boolean and the final state. -/
def QgsGrassRasterImport.import_ (env : Env) (w : QgsGrassRasterImport) : Bool × Run :=
  match w.mPipe with
  | none => (false, (Run.start w.mError).setError "Pipe is null.")
  | some pipe =>
    match pipe.provider with
    | none => (false, (Run.start w.mError).setError "Pipe has no provider.")
    | some provider =>
      if provider.isValid = false then
        (false, (Run.start w.mError).setError "Provider is not valid.")
      else (importBands env w pipe provider (List.range' 1 provider.bandCount.toNat)
        (Run.start w.mError))

/-- `QgsGrassRasterImport::extensions`. -/
def QgsGrassRasterImport.extensions (provider : Option QgsRasterDataProvider) : List String :=
  match provider with
  | none => []
  | some p =>
    if p.bandCount > 1 then
      (List.range' 1 p.bandCount.toNat).map (fun band => "_" ++ toString band)
    else []

/-- `QgsGrassRasterImport::names`. -/
def QgsGrassRasterImport.names (w : QgsGrassRasterImport) : List String :=
  let list :=
    match w.mPipe with
    | none => []
    | some pipe =>
      match pipe.provider with
      | none => []
      | some p =>
        (QgsGrassRasterImport.extensions (some p)).map (fun ext => w.mGrassObject.name ++ ext)
  if list.isEmpty then [w.mGrassObject.name] else list

/-! ## QgsGrassVectorImport -/

/-- The worker `QgsGrassVectorImport`. -/
structure QgsGrassVectorImport where
  mGrassObject : QgsGrassObject
  mError : String
  mProvider : Option QgsVectorDataProvider

/-- The feature as it is written: `feature.geometry()->transform( ... )` is
applied when `doTransform` holds and the feature has a geometry. -/
def transformed (coordinateTransform : QgsGeometry → QgsGeometry) (doTransform : Bool)
    (feature : QgsFeature) : QgsFeature :=
  if doTransform then { feature with geometry := feature.geometry.map coordinateTransform }
  else feature

/-- The loop `while ( iterator.nextFeature( feature ) )` over the features the
iterator still holds; returns what the iterator holds when the loop is left. -/
def sendFeatures (env : Env) (coordinateTransform : QgsGeometry → QgsGeometry)
    (doTransform : Bool) : List QgsFeature → Run → List QgsFeature × Run
  | [], r => ([], r)
  | feature :: iterator, r =>
    if feature.valid = false then
      sendFeatures env coordinateTransform doTransform iterator r
    else if (r.isCanceled env).1 then
      (iterator, (r.isCanceled env).2.write (Item.bool true))
    else
      sendFeatures env coordinateTransform doTransform iterator
        (((r.isCanceled env).2.write (Item.bool false)).write
          (Item.feature (transformed coordinateTransform doTransform feature)))

/-- The loop `for ( int i = 0; i < ( isPolygon ? 2 : 1 ); i++ )` over the
values of `i` still to do, with the current iterator. -/
def sendPasses (env : Env) (provider : QgsVectorDataProvider)
    (coordinateTransform : QgsGeometry → QgsGeometry) (doTransform : Bool) :
    List Nat → List QgsFeature → Run → Run
  | [], _, r => r
  | i :: rest, iterator, r =>
    let acquired : List QgsFeature × Run :=
      if i > 0 then
        (provider.getFeatures r.acquisitions, { r with acquisitions := r.acquisitions + 1 })
      else (iterator, r)
    let sent := sendFeatures env coordinateTransform doTransform acquired.1 acquired.2
    sendPasses env provider coordinateTransform doTransform rest sent.1
      ((sent.2.write (Item.bool false)).write (Item.feature QgsFeature.default))

/-- The test `QGis::singleType( QGis::flatType( wkbType ) ) == QGis::WKBPolygon`. -/
def isPolygon (env : Env) (wkbType : Int) : Bool :=
  decide (env.singleType (env.flatType wkbType) = env.WKBPolygon)

/-- The flag `doTransform`: both reference systems are valid and differ. -/
def QgsGrassVectorImport.doTransform (env : Env) (w : QgsGrassVectorImport)
    (provider : QgsVectorDataProvider) : Bool :=
  let providerCrs := provider.crs
  let mapsetCrs := env.crsDirect w.mGrassObject.gisdbase w.mGrassObject.location
  providerCrs.isValid && mapsetCrs.isValid && decide (providerCrs ≠ mapsetCrs)

/-- The transform from the provider's reference system to the mapset's. -/
def QgsGrassVectorImport.coordinateTransform (env : Env) (w : QgsGrassVectorImport)
    (provider : QgsVectorDataProvider) : QgsGeometry → QgsGeometry :=
  env.transform provider.crs (env.crsDirect w.mGrassObject.gisdbase w.mGrassObject.location)

/-- The record written for a source feature: the feature after the transform
the worker is configured with. -/
def QgsGrassVectorImport.sent (env : Env) (w : QgsGrassVectorImport)
    (provider : QgsVectorDataProvider) (feature : QgsFeature) : QgsFeature :=
  transformed (w.coordinateTransform env provider) (w.doTransform env provider) feature

/-- The part of `QgsGrassVectorImport::import` that writes to the started
process: the header `outStream << ( qint32 )wkbType; outStream <<
mProvider->fields();`, the first `getFeatures()`, and the loop over the passes. -/
def QgsGrassVectorImport.sendAll (env : Env) (w : QgsGrassVectorImport)
    (provider : QgsVectorDataProvider) : Run :=
  let wkbType := provider.geometryType
  let r0 := ((Run.start w.mError).write (Item.int32 wkbType)).write
    (Item.fields provider.fields)
  let r1 : Run := { r0 with acquisitions := r0.acquisitions + 1 }
  sendPasses env provider (w.coordinateTransform env provider) (w.doTransform env provider)
    (List.range (if isPolygon env wkbType then 2 else 1))
    (provider.getFeatures r0.acquisitions) r1

/-- `QgsGrassVectorImport::import`: the returned boolean and the final state. -/
def QgsGrassVectorImport.import_ (env : Env) (w : QgsGrassVectorImport) : Bool × Run :=
  match w.mProvider with
  | none => (false, (Run.start w.mError).setError "Provider is null.")
  | some provider =>
    if provider.isValid = false then
      (false, (Run.start w.mError).setError "Provider is not valid.")
    else
      let module := env.qgisGrassModulePath ++ "/qgis.v.in"
      let arguments := ["output=" ++ w.mGrassObject.name]
      match env.startModule w.mGrassObject.gisdbase w.mGrassObject.location
          w.mGrassObject.mapset module arguments with
      | Except.error what => (false, (Run.start w.mError).setError what)
      | Except.ok process =>
        let r2 := w.sendAll env provider
        let status := process.finish r2.out
        let r3 := r2.record { band := 0, module := module, arguments := arguments,
                              input := r2.out, exit := some status,
                              writeChannelClosed := true, deleted := true }
        if status.exitStatus ≠ ExitStatus.NormalExit then
          (false, r3.setError status.errorString)
        else if status.exitCode ≠ 0 then
          (false, r3.setError status.stderrString)
        else
          (true, r3)

/-! ## QgsGrassCopy -/

/-- The worker `QgsGrassCopy`. -/
structure QgsGrassCopy where
  mGrassObject : QgsGrassObject
  mError : String
  mSrcObject : QgsGrassObject

/-- `QgsGrassCopy::import`: the returned boolean and the final state. -/
def QgsGrassCopy.import_ (env : Env) (w : QgsGrassCopy) : Bool × Run :=
  match env.copyObject w.mSrcObject w.mGrassObject with
  | some what => (false, (Run.start w.mError).setError what)
  | none => (true, Run.start w.mError)

/-! ## The common interface -/

/-- A `QgsGrassImport`: one of the three concrete workers. -/
inductive Worker
  | raster (w : QgsGrassRasterImport)
  | vector (w : QgsGrassVectorImport)
  | copy (w : QgsGrassCopy)

/-- The virtual call `imp->import()`. -/
def Worker.import_ (env : Env) : Worker → Bool × Run
  | Worker.raster w => w.import_ env
  | Worker.vector w => w.import_ env
  | Worker.copy w => w.import_ env

/-- The field `mError` of a worker, which `QgsGrassImport::error` returns. -/
def Worker.mError : Worker → String
  | Worker.raster w => w.mError
  | Worker.vector w => w.mError
  | Worker.copy w => w.mError

/-- `QgsGrassImport::error` after the worker ran `import()`. -/
def Worker.errorAfter (env : Env) (w : Worker) : String :=
  (w.import_ env).2.mError

/-- The raster worker after it ran `import()`: only `mError` has changed. -/
def QgsGrassRasterImport.afterImport (env : Env) (w : QgsGrassRasterImport) :
    QgsGrassRasterImport :=
  { w with mError := (w.import_ env).2.mError }

/-- The field `mGrassObject` of a worker. -/
def Worker.mGrassObject : Worker → QgsGrassObject
  | Worker.raster w => w.mGrassObject
  | Worker.vector w => w.mGrassObject
  | Worker.copy w => w.mGrassObject

/-- A process record agrees with the environment: the module was started with
the recorded arguments, and the exit report recorded is the one that process
gives for the recorded input. -/
def ProcessLog.Genuine (env : Env) (g : QgsGrassObject) (q : ProcessLog) : Prop :=
  ∃ process, env.startModule g.gisdbase g.location g.mapset q.module q.arguments =
      Except.ok process ∧
    ∀ status, q.exit = some status → status = process.finish q.input


/-- Every text the environment can hand to `setError` is non-empty: the
message of a launch exception, the error string of a process that terminated
abnormally, the standard-error text of a process that exited with a non-zero
code, and the message of a copy exception. -/
def Env.TextsNonEmpty (env : Env) : Prop :=
  (∀ g l m module arguments what,
    env.startModule g l m module arguments = Except.error what → what ≠ "") ∧
  (∀ g l m module arguments process input,
    env.startModule g l m module arguments = Except.ok process →
      ((process.finish input).exitStatus ≠ ExitStatus.NormalExit →
        (process.finish input).errorString ≠ "") ∧
      ((process.finish input).exitStatus = ExitStatus.NormalExit →
        (process.finish input).exitCode ≠ 0 → (process.finish input).stderrString ≠ "")) ∧
  (∀ src dest what, env.copyObject src dest = some what → what ≠ "")

/-- The cancellation flag is monotone: once a read has seen it set, every
later read sees it set. -/
def FlagMonotone (env : Env) : Prop :=
  ∀ i j, i ≤ j → env.isCanceled i = true → env.isCanceled j = true

/-- No payload record follows a cancel flag `true` in a stream. -/
def NoPayloadAfterCancel (l : List Item) : Prop :=
  ∀ pre post, l = pre ++ Item.bool true :: post → ∀ x ∈ post, x.isPayload = false

/-- The invariant of the transfer loops under a monotone flag: if `true` has
been written the flag is set from the next read on, and no payload follows a
written `true`. -/
def Run.Sticky (env : Env) (r : Run) : Prop :=
  (Item.bool true ∈ r.out → env.isCanceled r.checks = true) ∧ NoPayloadAfterCancel r.out

/-! ## Concrete inputs

Small sources, processes and environments on which the statements below are
evaluated. -/

/-- The numbering of `QGis::DataType` used by the sample environments. -/
def sampleDataTypeCode : DataType → Int
  | DataType.UnknownDataType => 0
  | DataType.Byte => 1
  | DataType.UInt16 => 2
  | DataType.Int16 => 3
  | DataType.UInt32 => 4
  | DataType.Int32 => 5
  | DataType.Float32 => 6
  | DataType.Float64 => 7
  | DataType.CInt16 => 8
  | DataType.CInt32 => 9
  | DataType.CFloat32 => 10
  | DataType.CFloat64 => 11
  | DataType.ARGB32 => 12
  | DataType.ARGB32_Premultiplied => 13

/-- A process that exits normally with the given code and standard-error text. -/
def sampleExit (exitCode : Int) (stderrString : String) : ProcessExit where
  exitStatus := ExitStatus.NormalExit
  exitCode := exitCode
  errorString := "Unknown error"
  stdoutString := ""
  stderrString := stderrString

/-- An environment in which every module starts and exits as given, the
`i`-th read of the cancellation flag sees `flag i`, the mapset has reference
system 2 and the transform shifts every point by (100, 100). -/
def sampleEnv (flag : Nat → Bool) (status : ProcessExit) : Env where
  isCanceled := flag
  qgisGrassModulePath := "/usr/lib/qgis/grass/modules"
  dataTypeCode := sampleDataTypeCode
  startModule := fun _ _ _ _ _ => Except.ok { finish := fun _ => status }
  crsDirect := fun _ _ => { isValid := true, srsid := 2 }
  transform := fun _ _ g => g.map (fun c => (c.1 + 100, c.2 + 100))
  flatType := fun t => t % 1000
  singleType := fun t => if t = 6 then 3 else t
  WKBPolygon := 3
  copyObject := fun _ _ => none

/-- A block of four-byte cells whose row `row` holds `size` bytes of value `row`. -/
def sampleBlock (convertible : Bool) : QgsRasterBlock where
  convert := fun _ => convertible
  dataTypeSize := fun _ => 4
  bits := fun _ row size => List.replicate size.toNat row

/-- A pipe on a provider with the given band count and band types, whose
iterator delivers one part of two rows and three columns per band. -/
def samplePipe (bandCount : Int) (dataType : Nat → DataType) (convertible : Bool) :
    QgsRasterPipe where
  provider := some { isValid := true, bandCount := bandCount, dataType := dataType }
  readParts := fun _ _ _ _ _ _ =>
    [{ iterCols := 3, iterRows := 2, block := sampleBlock convertible }]

/-- A raster worker on `samplePipe`, writing the map `dem`. -/
def sampleRaster (bandCount : Int) (dataType : Nat → DataType) (convertible : Bool) :
    QgsGrassRasterImport where
  mGrassObject := { gisdbase := "/grassdata", location := "loc", mapset := "user", name := "dem" }
  mError := ""
  mPipe := some (samplePipe bandCount dataType convertible)
  mExtent := { xMinimum := 0, yMinimum := 0, xMaximum := 3, yMaximum := 2 }
  mXSize := 3
  mYSize := 2

/-- The provider of `samplePipe`. -/
def sampleRasterProvider (bandCount : Int) (dataType : Nat → DataType) :
    QgsRasterDataProvider where
  isValid := true
  bandCount := bandCount
  dataType := dataType

/-- A valid feature with one point and one attribute. -/
def sampleFeature (n : Int) : QgsFeature where
  valid := true
  geometry := some [(n, n)]
  attributes := ["a"]

/-- A vector provider in reference system 1 with three valid features. -/
def sampleVectorProvider (geometryType : Int) : QgsVectorDataProvider where
  isValid := true
  crs := { isValid := true, srsid := 1 }
  geometryType := geometryType
  fields := [("id", "int")]
  getFeatures := fun _ => [sampleFeature 1, sampleFeature 2, sampleFeature 3]

/-- A vector worker on `sampleVectorProvider`. -/
def sampleVector (geometryType : Int) : QgsGrassVectorImport where
  mGrassObject := { gisdbase := "/grassdata", location := "loc", mapset := "user", name := "lots" }
  mError := ""
  mProvider := some (sampleVectorProvider geometryType)

/-! ## Frame lemmas for the raster loops -/

theorem sendRows_frame (env : Env) (block : QgsRasterBlock) (t : DataType) (cols : Int)
    (rows : List Nat) (r : Run) :
    (sendRows env block t cols rows r).2.processes = r.processes ∧
    ((sendRows env block t cols rows r).1 ≠ LoopExit.returned →
      (sendRows env block t cols rows r).2.mError = r.mError) ∧
    ((sendRows env block t cols rows r).1 = LoopExit.returned →
      (sendRows env block t cols rows r).2.mError = "cannot vonvert data type") := by
  induction rows generalizing r with
  | nil => simp [sendRows]
  | cons row rows ih =>
    simp only [sendRows]
    split_ifs with h1 h2
    · simp [Run.setError]
    · simp [Run.write, Run.isCanceled]
    · have := ih (((r.isCanceled env).2.write (Item.bool false)).write
        (Item.bytes (block.bits t row (cols * block.dataTypeSize t))))
      simpa [Run.write, Run.isCanceled] using this

theorem sendParts_frame (env : Env) (t : DataType) (parts : List RasterPart) (r : Run) :
    (sendParts env t parts r).2.processes = r.processes ∧
    ((sendParts env t parts r).1 ≠ LoopExit.returned →
      (sendParts env t parts r).2.mError = r.mError) ∧
    ((sendParts env t parts r).1 = LoopExit.returned →
      (sendParts env t parts r).2.mError = "cannot vonvert data type") := by
  induction parts generalizing r with
  | nil => simp [sendParts]
  | cons part parts ih =>
    have hrows := sendRows_frame env part.block t part.iterCols (List.range part.iterRows.toNat) r
    simp only [sendParts]
    split
    · next r1 heq =>
      rw [heq] at hrows
      simpa using hrows
    · next e r1 hne heq =>
      rw [heq] at hrows
      have he : e ≠ LoopExit.returned := hne
      simp only [ne_eq, he, not_false_eq_true, true_implies, false_implies, and_true] at hrows
      split_ifs with h2
      · simp [Run.write, Run.isCanceled, hrows]
      · have := ih (r1.isCanceled env).2
        simpa [Run.isCanceled, hrows] using this

@[simp] theorem writeRasterHeader_processes (env : Env) (w : QgsGrassRasterImport)
    (t : DataType) (r : Run) : (writeRasterHeader env w t r).processes = r.processes := rfl

@[simp] theorem writeRasterHeader_mError (env : Env) (w : QgsGrassRasterImport)
    (t : DataType) (r : Run) : (writeRasterHeader env w t r).mError = r.mError := rfl

@[simp] theorem writeRasterHeader_checks (env : Env) (w : QgsGrassRasterImport)
    (t : DataType) (r : Run) : (writeRasterHeader env w t r).checks = r.checks := rfl

@[simp] theorem writeRasterHeader_out (env : Env) (w : QgsGrassRasterImport)
    (t : DataType) (r : Run) : (writeRasterHeader env w t r).out =
      [Item.extent w.mExtent, Item.int32 w.mXSize, Item.int32 w.mYSize,
       Item.int32 (env.dataTypeCode t)] := rfl

theorem importBand_spec (env : Env) (w : QgsGrassRasterImport) (pipe : QgsRasterPipe)
    (provider : QgsRasterDataProvider) (band : Nat) (r : Run) :
    ((importBand env w pipe provider band r).1 = false ∧
      (importBand env w pipe provider band r).2.processes = r.processes) ∨
    (∃ log : ProcessLog,
      (importBand env w pipe provider band r).2.processes = r.processes ++ [log] ∧
      log.band = band ∧ log.arguments = ["output=" ++ bandName w provider band] ∧
      ((log.exit = none ∧ log.deleted = false ∧ log.writeChannelClosed = false ∧
          (importBand env w pipe provider band r).1 = false) ∨
       (∃ status : ProcessExit, log.exit = some status ∧ log.deleted = true ∧
          log.writeChannelClosed = true ∧
          (status.exitStatus ≠ ExitStatus.NormalExit →
            (importBand env w pipe provider band r).1 = false ∧
            (importBand env w pipe provider band r).2.mError = status.errorString) ∧
          (status.exitStatus = ExitStatus.NormalExit → status.exitCode ≠ 0 →
            (importBand env w pipe provider band r).1 = false ∧
            (importBand env w pipe provider band r).2.mError = status.stderrString) ∧
          (status.exitStatus = ExitStatus.NormalExit → status.exitCode = 0 →
            (importBand env w pipe provider band r).1 = true ∧
            (importBand env w pipe provider band r).2.mError = r.mError)))) := by
  unfold importBand
  split
  · left; simp [Run.setError]
  · next t ht =>
    simp only []
    split
    · left; simp [Run.setError]
    · next process hp =>
      right
      split
      · next r1 heq =>
        have hf := (sendParts_frame env t (bandParts w pipe band) (writeRasterHeader env w t r)).1
        rw [heq] at hf
        simp only [writeRasterHeader_processes] at hf
        refine ⟨{ band := band, module := env.qgisGrassModulePath ++ "/qgis.r.in",
                  arguments := ["output=" ++ bandName w provider band], input := r1.out,
                  exit := none, writeChannelClosed := false, deleted := false },
                ?_, rfl, rfl, Or.inl ⟨rfl, rfl, rfl, rfl⟩⟩
        simp [Run.record, hf]
      · next e r1 hne heq =>
        have hf := sendParts_frame env t (bandParts w pipe band) (writeRasterHeader env w t r)
        rw [heq] at hf
        simp only [ne_eq, hne, not_false_eq_true, true_implies, false_implies, and_true,
          writeRasterHeader_processes, writeRasterHeader_mError] at hf
        refine ⟨{ band := band, module := env.qgisGrassModulePath ++ "/qgis.r.in",
                  arguments := ["output=" ++ bandName w provider band], input := r1.out,
                  exit := some (process.finish r1.out), writeChannelClosed := true,
                  deleted := true },
                ?_, rfl, rfl, Or.inr ⟨process.finish r1.out, rfl, rfl, rfl, ?_, ?_, ?_⟩⟩
        · split_ifs <;> simp [Run.record, Run.setError, hf.1]
        · intro h; simp [h, Run.setError, Run.record]
        · intro h1 h2; simp [h1, h2, Run.setError, Run.record]
        · intro h1 h2
          have hm : r1.mError = r.mError := hf.2.1 hne
          simp [h1, h2, Run.record, hm]


/-! ## The band loop -/

theorem importBands_induction (env : Env) (w : QgsGrassRasterImport) (pipe : QgsRasterPipe)
    (provider : QgsRasterDataProvider) (P : Run → Prop) (Q : Bool × Run → Prop)
    (hdone : ∀ r, P r → Q (true, r))
    (hstep : ∀ band r, P r → (importBand env w pipe provider band r).1 = true →
      P (importBand env w pipe provider band r).2)
    (hfail : ∀ band r, P r → (importBand env w pipe provider band r).1 = false →
      Q (false, (importBand env w pipe provider band r).2)) :
    ∀ (bands : List Nat) (r : Run), P r → Q (importBands env w pipe provider bands r) := by
  intro bands
  induction bands with
  | nil => intro r hr; exact hdone r hr
  | cons band bands ih =>
    intro r hr
    simp only [importBands]
    split
    · next r1 heq =>
      have := hfail band r hr (by rw [heq])
      rwa [heq] at this
    · next r1 heq =>
      have := hstep band r hr (by rw [heq])
      rw [heq] at this
      exact ih r1 this

/-- The arguments passed to the processes spawned by the band loop over
`List.range' s m`, started with processes `r.processes`: those already there
followed by `output=<bandName>` for the bands `s, s+1, ...` up to where the
loop stopped, and for all of them when the loop returns `true`. -/
theorem importBands_arguments (env : Env) (w : QgsGrassRasterImport) (pipe : QgsRasterPipe)
    (provider : QgsRasterDataProvider) :
    ∀ (m s : Nat) (r : Run),
      ∃ j, j ≤ m ∧
        (importBands env w pipe provider (List.range' s m) r).2.processes.map
            (fun p => p.arguments) =
          r.processes.map (fun p => p.arguments) ++
            (List.range' s j).map (fun band => ["output=" ++ bandName w provider band]) ∧
        (∀ p ∈ (importBands env w pipe provider (List.range' s m) r).2.processes,
            p ∈ r.processes ∨ (s ≤ p.band ∧ p.band < s + j)) ∧
        ((importBands env w pipe provider (List.range' s m) r).1 = true → j = m) := by
  intro m
  induction m with
  | zero =>
    intro s r
    exact ⟨0, le_refl _, by simp [importBands], fun p hp => Or.inl (by simpa [importBands] using hp),
      by simp⟩
  | succ m ih =>
    intro s r
    rw [List.range'_succ]
    simp only [importBands]
    rcases importBand_spec env w pipe provider s r with ⟨hok, hproc⟩ | ⟨log, hproc, hband, hargs, hrest⟩
    · refine ⟨0, Nat.zero_le _, ?_⟩
      split
      · next r1 heq =>
        rw [heq] at hproc
        simp only at hproc
        exact ⟨by simp [hproc], fun p hp => Or.inl (by simpa [hproc] using hp), by simp⟩
      · next r1 heq => rw [heq] at hok; simp at hok
    · split
      · next r1 heq =>
        rw [heq] at hproc
        simp only at hproc
        refine ⟨1, by omega, ?_, ?_, by simp⟩
        · simp [hproc, hargs]
        · intro p hp
          rw [hproc] at hp
          rcases List.mem_append.1 hp with h | h
          · exact Or.inl h
          · right
            have : p = log := by simpa using h
            subst this
            omega
      · next r1 heq =>
        rw [heq] at hproc
        simp only at hproc
        obtain ⟨j, hj, h1, h2, h3⟩ := ih (s + 1) r1
        refine ⟨j + 1, by omega, ?_, ?_, ?_⟩
        · rw [h1, hproc, List.range'_succ]
          simp [hargs]
        · intro p hp
          rcases h2 p hp with h | h
          · rw [hproc] at h
            rcases List.mem_append.1 h with h | h
            · exact Or.inl h
            · right
              have : p = log := by simpa using h
              subst this
              omega
          · right; omega
        · intro h; have := h3 h; omega


/-! ## Names -/

theorem names_of_bandCount (w : QgsGrassRasterImport) (pipe : QgsRasterPipe)
    (p : QgsRasterDataProvider) (hpipe : w.mPipe = some pipe) (hprov : pipe.provider = some p) :
    w.names = if p.bandCount > 1 then
        (List.range' 1 p.bandCount.toNat).map
          (fun band => w.mGrassObject.name ++ ("_" ++ toString band))
      else [w.mGrassObject.name] := by
  unfold QgsGrassRasterImport.names QgsGrassRasterImport.extensions
  simp only [hpipe, hprov]
  by_cases h : p.bandCount > 1
  · have hpos : 0 < p.bandCount.toNat := by omega
    simp [h, List.map_map, Function.comp_def]
    omega
  · simp [h]

theorem names_eq_map_bandName (w : QgsGrassRasterImport) (pipe : QgsRasterPipe)
    (p : QgsRasterDataProvider) (hpipe : w.mPipe = some pipe) (hprov : pipe.provider = some p)
    (h1 : 1 ≤ p.bandCount) :
    w.names = (List.range' 1 p.bandCount.toNat).map (bandName w p) := by
  rw [names_of_bandCount w pipe p hpipe hprov]
  by_cases h : p.bandCount > 1
  · simp [h, bandName]
  · have h1' : p.bandCount = 1 := by omega
    simp [h1', bandName]

/-- Every process but the last one spawned by the band loop has been waited
for, had its write channel closed and been deleted. -/
theorem importBands_sequential (env : Env) (w : QgsGrassRasterImport) (pipe : QgsRasterPipe)
    (provider : QgsRasterDataProvider) (bands : List Nat) (r : Run)
    (hr : ∀ p ∈ r.processes, p.exit ≠ none ∧ p.writeChannelClosed = true ∧ p.deleted = true) :
    ∀ p ∈ (importBands env w pipe provider bands r).2.processes.dropLast,
      p.exit ≠ none ∧ p.writeChannelClosed = true ∧ p.deleted = true := by
  refine importBands_induction env w pipe provider
    (fun r => ∀ p ∈ r.processes, p.exit ≠ none ∧ p.writeChannelClosed = true ∧ p.deleted = true)
    (fun res => ∀ p ∈ res.2.processes.dropLast,
      p.exit ≠ none ∧ p.writeChannelClosed = true ∧ p.deleted = true)
    ?_ ?_ ?_ bands r hr
  · intro r hr p hp
    exact hr p (List.dropLast_subset _ hp)
  · intro band r hr hok p hp
    rcases importBand_spec env w pipe provider band r with ⟨hf, _⟩ | ⟨log, hproc, _, _, hrest⟩
    · rw [hok] at hf; cases hf
    · rw [hproc] at hp
      rcases List.mem_append.1 hp with h | h
      · exact hr p h
      · have hpl : p = log := by simpa using h
        subst hpl
        rcases hrest with ⟨_, _, _, hf⟩ | ⟨status, hex, hdel, hcl, _⟩
        · rw [hok] at hf; cases hf
        · exact ⟨by rw [hex]; simp, hcl, hdel⟩
  · intro band r hr _ p hp
    rcases importBand_spec env w pipe provider band r with ⟨_, hproc⟩ | ⟨log, hproc, _, _, _⟩
    · simp only at hp
      rw [hproc] at hp
      exact hr p (List.dropLast_subset _ hp)
    · simp only at hp
      rw [hproc, List.dropLast_concat] at hp
      exact hr p hp

/-- C10. In a raster import on a provider with at least one band, the
argument lists given to the spawned converter processes, in spawn order, are
`output=<name>` for a leading segment of `names()`, and for all of `names()`
when `import()` returns true; every process but the last spawned has finished
(exit read, write channel closed, deleted) before the next one is spawned. -/
theorem raster_spawned_outputs_lead_names (env : Env) (w : QgsGrassRasterImport)
    (pipe : QgsRasterPipe) (p : QgsRasterDataProvider)
    (hpipe : w.mPipe = some pipe) (hprov : pipe.provider = some p) (h1 : 1 ≤ p.bandCount) :
    (∃ rest, w.names.map (fun name => ["output=" ++ name]) =
        (w.import_ env).2.processes.map (fun q => q.arguments) ++ rest) ∧
    ((w.import_ env).1 = true →
      (w.import_ env).2.processes.map (fun q => q.arguments) =
        w.names.map (fun name => ["output=" ++ name])) ∧
    (∀ q ∈ (w.import_ env).2.processes.dropLast,
      q.exit ≠ none ∧ q.writeChannelClosed = true ∧ q.deleted = true) := by
  have hnames := names_eq_map_bandName w pipe p hpipe hprov h1
  unfold QgsGrassRasterImport.import_
  simp only [hpipe, hprov]
  split_ifs with hv
  · simp [Run.start, Run.setError]
  · obtain ⟨j, hj, hargs, _, hall⟩ := importBands_arguments env w pipe p
      p.bandCount.toNat 1 (Run.start w.mError)
    have hstart : (Run.start w.mError).processes = [] := rfl
    rw [hstart] at hargs
    simp only [List.map_nil, List.nil_append] at hargs
    refine ⟨⟨(List.range' (1 + j) (p.bandCount.toNat - j)).map
        (fun band => ["output=" ++ bandName w p band]), ?_⟩, ?_, ?_⟩
    · rw [hargs, hnames, ← List.map_append, List.range'_append_1, List.map_map]
      have : p.bandCount.toNat - j + j = p.bandCount.toNat := by omega
      rw [this]
      rfl
    · intro hok
      rw [hargs, hnames, hall hok, List.map_map]
      rfl
    · exact importBands_sequential env w pipe p _ _ (by simp [Run.start])


/-- C3. For a raster worker with base name `b` whose provider reports
`bandCount = n ≥ 1`: `names()` has exactly `n` entries `b_1, ..., b_n` in band
order when `n > 1`, and is `[b]` when `n = 1`; it is the same after `import()`
has run (whatever the outcome), and the same for every raster worker with the
same base name and band count. -/
theorem raster_names_by_band_count (env : Env) (w : QgsGrassRasterImport)
    (pipe : QgsRasterPipe) (p : QgsRasterDataProvider) (n : Nat)
    (hpipe : w.mPipe = some pipe) (hprov : pipe.provider = some p)
    (hn : p.bandCount = (n : Int)) (h1 : 1 ≤ n) :
    (1 < n → w.names.length = n ∧
      ∀ i, i < n → w.names[i]? = some (w.mGrassObject.name ++ "_" ++ toString (i + 1))) ∧
    (n = 1 → w.names = [w.mGrassObject.name]) ∧
    (w.afterImport env).names = w.names ∧
    (∀ (w2 : QgsGrassRasterImport) (pipe2 : QgsRasterPipe) (p2 : QgsRasterDataProvider),
      w2.mPipe = some pipe2 → pipe2.provider = some p2 → p2.bandCount = (n : Int) →
      w2.mGrassObject.name = w.mGrassObject.name → w2.names = w.names) := by
  have hw := names_of_bandCount w pipe p hpipe hprov
  rw [hn] at hw
  simp only [Int.toNat_ofNat] at hw
  refine ⟨?_, ?_, ?_, ?_⟩
  · intro hgt
    have hgt' : (n : Int) > 1 := by omega
    rw [if_pos hgt'] at hw
    rw [hw]
    refine ⟨by simp, ?_⟩
    intro i hi
    simp [List.getElem?_map, List.getElem?_range', hi, String.append_assoc, Nat.add_comm]
  · intro h
    subst h
    simpa using hw
  · rfl
  · intro w2 pipe2 p2 hpipe2 hprov2 hn2 hname
    have hw2 := names_of_bandCount w2 pipe2 p2 hpipe2 hprov2
    rw [hn2] at hw2
    simp only [Int.toNat_ofNat] at hw2
    rw [hw, hw2, hname]


/-- When a band `k` of the range has a rejected type, the band loop returns
false and spawns processes for bands before `k` only. -/
theorem importBands_rejected (env : Env) (w : QgsGrassRasterImport) (pipe : QgsRasterPipe)
    (p : QgsRasterDataProvider) (k : Nat) (hnone : outType (p.dataType k) = none) :
    ∀ (m s : Nat) (r : Run), s ≤ k → k < s + m →
      (importBands env w pipe p (List.range' s m) r).1 = false ∧
      ∀ q ∈ (importBands env w pipe p (List.range' s m) r).2.processes,
        q ∈ r.processes ∨ q.band < k := by
  intro m
  induction m with
  | zero => intro s r h1 h2; omega
  | succ m ih =>
    intro s r hsk hks
    rw [List.range'_succ]
    simp only [importBands]
    have hstep : ∀ q ∈ (importBand env w pipe p s r).2.processes, q ∈ r.processes ∨ q.band ≤ s := by
      intro q hq
      rcases importBand_spec env w pipe p s r with ⟨_, hproc⟩ | ⟨log, hproc, hband, _, _⟩
      · rw [hproc] at hq; exact Or.inl hq
      · rw [hproc] at hq
        rcases List.mem_append.1 hq with h | h
        · exact Or.inl h
        · have : q = log := by simpa using h
          subst this
          exact Or.inr (le_of_eq hband)
    by_cases hs : s = k
    · subst hs
      have hb : importBand env w pipe p s r = (false, r.setError (notSupported env (p.dataType s))) := by
        unfold importBand
        rw [hnone]
      rw [hb]
      exact ⟨rfl, fun q hq => Or.inl hq⟩
    · have hlt : s < k := by omega
      split
      · next r1 heq =>
        rw [heq] at hstep
        refine ⟨rfl, fun q hq => ?_⟩
        rcases hstep q hq with h | h
        · exact Or.inl h
        · exact Or.inr (by omega)
      · next r1 heq =>
        rw [heq] at hstep
        obtain ⟨hok, hq⟩ := ih (s + 1) r1 (by omega) (by omega)
        refine ⟨hok, fun q hq1 => ?_⟩
        rcases hq q hq1 with h | h
        · rcases hstep q h with h | h
          · exact Or.inl h
          · exact Or.inr (by omega)
        · exact Or.inr h


/-- C6. For every band `k` of a raster import: the integer kinds Byte, UInt16,
Int16, UInt32, Int32 are sent as Int32, Float32 as Float32, Float64 as
Float64, and every type that is not rejected is sent as one of these three;
for the complex types and the unknown type the band body sets the error
"Data type .. not supported" and returns false without spawning a process,
and the whole `import()` returns false with no process spawned for band `k`
or a later band. -/
theorem raster_type_mapping_and_rejection (env : Env) (w : QgsGrassRasterImport)
    (pipe : QgsRasterPipe) (p : QgsRasterDataProvider) (k : Nat)
    (hpipe : w.mPipe = some pipe) (hprov : pipe.provider = some p)
    (hk1 : 1 ≤ k) (hkn : (k : Int) ≤ p.bandCount) :
    (p.dataType k ∈ [DataType.Byte, DataType.UInt16, DataType.Int16, DataType.UInt32,
        DataType.Int32] → outType (p.dataType k) = some DataType.Int32) ∧
    (p.dataType k = DataType.Float32 → outType (p.dataType k) = some DataType.Float32) ∧
    (p.dataType k = DataType.Float64 → outType (p.dataType k) = some DataType.Float64) ∧
    (∀ o, outType (p.dataType k) = some o →
      o = DataType.Int32 ∨ o = DataType.Float32 ∨ o = DataType.Float64) ∧
    (p.dataType k ∈ [DataType.CInt16, DataType.CInt32, DataType.CFloat32, DataType.CFloat64,
        DataType.UnknownDataType] →
      outType (p.dataType k) = none ∧
      (∀ r, importBand env w pipe p k r = (false, r.setError (notSupported env (p.dataType k)))) ∧
      (w.import_ env).1 = false ∧
      (∀ q ∈ (w.import_ env).2.processes, q.band < k)) := by
  refine ⟨?_, ?_, ?_, ?_, ?_⟩
  · intro h
    simp only [List.mem_cons, List.mem_singleton, List.not_mem_nil, or_false] at h
    rcases h with h | h | h | h | h <;> rw [h] <;> rfl
  · intro h; rw [h]; rfl
  · intro h; rw [h]; rfl
  · intro o ho
    cases hd : p.dataType k <;> rw [hd] at ho <;> simp [outType] at ho <;> simp [← ho]
  · intro h
    have hnone : outType (p.dataType k) = none := by
      simp only [List.mem_cons, List.mem_singleton, List.not_mem_nil, or_false] at h
      rcases h with h | h | h | h | h <;> rw [h] <;> rfl
    have hband : ∀ r, importBand env w pipe p k r =
        (false, r.setError (notSupported env (p.dataType k))) := by
      intro r
      unfold importBand
      rw [hnone]
    refine ⟨hnone, hband, ?_, ?_⟩
    all_goals
      unfold QgsGrassRasterImport.import_
      simp only [hpipe, hprov]
      split_ifs with hv
    · rfl
    · exact (importBands_rejected env w pipe p k hnone p.bandCount.toNat 1 (Run.start w.mError)
        hk1 (by omega)).1
    · simp [Run.start, Run.setError]
    · intro q hq
      rcases (importBands_rejected env w pipe p k hnone p.bandCount.toNat 1 (Run.start w.mError)
        hk1 (by omega)).2 q hq with h | h
      · simp [Run.start] at h
      · exact h


/-! ## Frame lemmas for the vector loops -/

theorem sendFeatures_frame (env : Env) (ct : QgsGeometry → QgsGeometry) (doTransform : Bool)
    (iterator : List QgsFeature) (r : Run) :
    (sendFeatures env ct doTransform iterator r).2.processes = r.processes ∧
    (sendFeatures env ct doTransform iterator r).2.mError = r.mError ∧
    (sendFeatures env ct doTransform iterator r).2.acquisitions = r.acquisitions := by
  induction iterator generalizing r with
  | nil => simp [sendFeatures]
  | cons feature iterator ih =>
    simp only [sendFeatures]
    split_ifs with h1 h2
    · exact ih r
    · simp [Run.write, Run.isCanceled]
    · have := ih (((r.isCanceled env).2.write (Item.bool false)).write
        (Item.feature (transformed ct doTransform feature)))
      simpa [Run.write, Run.isCanceled] using this

theorem sendPasses_frame (env : Env) (provider : QgsVectorDataProvider)
    (ct : QgsGeometry → QgsGeometry) (doTransform : Bool)
    (passes : List Nat) (iterator : List QgsFeature) (r : Run) :
    (sendPasses env provider ct doTransform passes iterator r).processes = r.processes ∧
    (sendPasses env provider ct doTransform passes iterator r).mError = r.mError := by
  induction passes generalizing iterator r with
  | nil => simp [sendPasses]
  | cons i rest ih =>
    simp only [sendPasses]
    rw [(ih _ _).1, (ih _ _).2]
    simp only [Run.write]
    rw [(sendFeatures_frame _ _ _ _ _).1, (sendFeatures_frame _ _ _ _ _).2.1]
    split_ifs <;> simp

/-- The outcomes of `QgsGrassVectorImport::import`: no process and false, or
exactly one process, waited for, closed and deleted, whose exit report
decides the result and the error text. -/
theorem vectorImport_spec (env : Env) (w : QgsGrassVectorImport) :
    ((w.import_ env).1 = false ∧ (w.import_ env).2.processes = []) ∨
    (∃ log : ProcessLog, ∃ status : ProcessExit,
      (w.import_ env).2.processes = [log] ∧ log.Genuine env w.mGrassObject ∧
      log.arguments = ["output=" ++ w.mGrassObject.name] ∧
      log.exit = some status ∧ log.deleted = true ∧ log.writeChannelClosed = true ∧
      (status.exitStatus ≠ ExitStatus.NormalExit →
        (w.import_ env).1 = false ∧ (w.import_ env).2.mError = status.errorString) ∧
      (status.exitStatus = ExitStatus.NormalExit → status.exitCode ≠ 0 →
        (w.import_ env).1 = false ∧ (w.import_ env).2.mError = status.stderrString) ∧
      (status.exitStatus = ExitStatus.NormalExit → status.exitCode = 0 →
        (w.import_ env).1 = true ∧ (w.import_ env).2.mError = w.mError)) := by
  unfold QgsGrassVectorImport.import_
  split
  · left; simp [Run.setError, Run.start]
  · next provider hprov =>
    split_ifs with hv
    · left; simp [Run.setError, Run.start]
    · simp only []
      split
      · left; simp [Run.setError, Run.start]
      · next process hp =>
        right
        have hf : (w.sendAll env provider).processes = [] ∧
            (w.sendAll env provider).mError = w.mError := by
          unfold QgsGrassVectorImport.sendAll
          simp only []
          rw [(sendPasses_frame _ _ _ _ _ _ _).1, (sendPasses_frame _ _ _ _ _ _ _).2]
          simp [Run.write, Run.start]
        generalize w.sendAll env provider = r2 at hf ⊢
        refine ⟨{ band := 0, module := env.qgisGrassModulePath ++ "/qgis.v.in",
                  arguments := ["output=" ++ w.mGrassObject.name], input := r2.out,
                  exit := some (process.finish r2.out), writeChannelClosed := true,
                  deleted := true }, process.finish r2.out, ?_, ⟨process, hp, by simp⟩,
                rfl, rfl, rfl, rfl, ?_, ?_, ?_⟩
        · split_ifs <;> simp [Run.record, Run.setError, hf.1]
        · intro h; simp [h, Run.setError, Run.record]
        · intro h1 h2; simp [h1, h2, Run.setError, Run.record]
        · intro h1 h2; simp [h1, h2, Run.record, hf.2]


/-! ## Error text and result -/

theorem importBand_true (env : Env) (w : QgsGrassRasterImport) (pipe : QgsRasterPipe)
    (p : QgsRasterDataProvider) (band : Nat) (r : Run)
    (hok : (importBand env w pipe p band r).1 = true) :
    (importBand env w pipe p band r).2.mError = r.mError ∧
    ∃ log status, (importBand env w pipe p band r).2.processes = r.processes ++ [log] ∧
      log.exit = some status ∧ status.exitStatus = ExitStatus.NormalExit ∧
      status.exitCode = 0 := by
  rcases importBand_spec env w pipe p band r with ⟨hf, _⟩ | ⟨log, hproc, _, _, hrest⟩
  · rw [hok] at hf; cases hf
  · rcases hrest with ⟨_, _, _, hf⟩ | ⟨status, hex, _, _, h1, h2, h3⟩
    · rw [hok] at hf; cases hf
    · by_cases hn : status.exitStatus = ExitStatus.NormalExit
      · by_cases hc : status.exitCode = 0
        · exact ⟨(h3 hn hc).2, log, status, hproc, hex, hn, hc⟩
        · have := (h2 hn hc).1; rw [hok] at this; cases this
      · have := (h1 hn).1; rw [hok] at this; cases this

theorem rasterImport_true_mError (env : Env) (w : QgsGrassRasterImport)
    (hok : (w.import_ env).1 = true) : (w.import_ env).2.mError = w.mError := by
  unfold QgsGrassRasterImport.import_ at hok ⊢
  split at hok
  · cases hok
  · next pipe hpipe =>
    split at hok
    · cases hok
    · next p hprov =>
      split_ifs at hok with hv
      simp only [if_neg hv]
      exact importBands_induction env w pipe p (fun r => r.mError = w.mError)
        (fun res => res.1 = true → res.2.mError = w.mError)
        (fun r hr _ => hr)
        (fun band r hr h => ((importBand_true env w pipe p band r h).1).trans hr)
        (fun band r _ _ h => by cases h)
        _ _ rfl hok

theorem vectorImport_true_mError (env : Env) (w : QgsGrassVectorImport)
    (hok : (w.import_ env).1 = true) : (w.import_ env).2.mError = w.mError := by
  rcases vectorImport_spec env w with ⟨hf, _⟩ | ⟨log, status, _, _, _, _, _, _, h1, h2, h3⟩
  · rw [hok] at hf; cases hf
  · by_cases hn : status.exitStatus = ExitStatus.NormalExit
    · by_cases hc : status.exitCode = 0
      · exact (h3 hn hc).2
      · have := (h2 hn hc).1; rw [hok] at this; cases this
    · have := (h1 hn).1; rw [hok] at this; cases this

theorem copyImport_true_mError (env : Env) (w : QgsGrassCopy)
    (hok : (w.import_ env).1 = true) : (w.import_ env).2.mError = w.mError := by
  unfold QgsGrassCopy.import_ at hok ⊢
  split at hok
  · cases hok
  · next h => simp [h, Run.start]

/-- C5. For every worker (raster, vector or copy) whose `import()` returns
true, the error text is the one the worker had before the call; for a freshly
constructed worker, whose error text is empty, `error()` is still empty. -/
theorem import_success_leaves_error (env : Env) (w : Worker)
    (hok : (w.import_ env).1 = true) :
    (w.import_ env).2.mError = w.mError ∧ (w.mError = "" → w.errorAfter env = "") := by
  have h : (w.import_ env).2.mError = w.mError := by
    cases w with
    | raster w => exact rasterImport_true_mError env w hok
    | vector w => exact vectorImport_true_mError env w hok
    | copy w => exact copyImport_true_mError env w hok
  exact ⟨h, fun h0 => by unfold Worker.errorAfter; rw [h, h0]⟩


/-! ## Process exit -/

theorem importBand_genuine (env : Env) (w : QgsGrassRasterImport) (pipe : QgsRasterPipe)
    (p : QgsRasterDataProvider) (band : Nat) (r : Run)
    (hr : ∀ q ∈ r.processes, q.Genuine env w.mGrassObject) :
    ∀ q ∈ (importBand env w pipe p band r).2.processes, q.Genuine env w.mGrassObject := by
  unfold importBand
  split
  · simpa [Run.setError] using hr
  · next t ht =>
    simp only []
    split
    · simpa [Run.setError] using hr
    · next process hp =>
      have hf := sendParts_frame env t (bandParts w pipe band) (writeRasterHeader env w t r)
      split
      · next r1 heq =>
        rw [heq] at hf
        have hf1 : r1.processes = r.processes := hf.1
        intro q hq
        simp only [Run.record, hf1, List.mem_append, List.mem_singleton] at hq
        rcases hq with hq | hq
        · exact hr q hq
        · subst hq
          exact ⟨process, hp, by simp⟩
      · next e r1 hne heq =>
        rw [heq] at hf
        have hf1 : r1.processes = r.processes := hf.1
        have hgen : ∀ q ∈ (r1.record
            { band := band, module := env.qgisGrassModulePath ++ "/qgis.r.in",
              arguments := ["output=" ++ bandName w p band], input := r1.out,
              exit := some (process.finish r1.out), writeChannelClosed := true,
              deleted := true }).processes, q.Genuine env w.mGrassObject := by
          intro q hq
          simp only [Run.record, hf1, List.mem_append, List.mem_singleton] at hq
          rcases hq with hq | hq
          · exact hr q hq
          · subst hq
            exact ⟨process, hp, by simp⟩
        split_ifs <;> simpa [Run.setError] using hgen

theorem rasterImport_genuine (env : Env) (w : QgsGrassRasterImport) :
    ∀ q ∈ (w.import_ env).2.processes, q.Genuine env w.mGrassObject := by
  unfold QgsGrassRasterImport.import_
  split
  · simp [Run.start, Run.setError]
  · next pipe hpipe =>
    split
    · simp [Run.start, Run.setError]
    · next p hprov =>
      split_ifs with hv
      · simp [Run.start, Run.setError]
      · exact importBands_induction env w pipe p
          (fun r => ∀ q ∈ r.processes, q.Genuine env w.mGrassObject)
          (fun res => ∀ q ∈ res.2.processes, q.Genuine env w.mGrassObject)
          (fun r hr => hr)
          (fun band r hr _ => importBand_genuine env w pipe p band r hr)
          (fun band r hr _ => importBand_genuine env w pipe p band r hr)
          _ _ (by simp [Run.start])

/-- The exit handling of the raster worker, for the whole run. -/
theorem rasterImport_exit (env : Env) (w : QgsGrassRasterImport) (q : ProcessLog)
    (status : ProcessExit) (hq : q ∈ (w.import_ env).2.processes) (hexit : q.exit = some status)
    (hfail : status.exitStatus ≠ ExitStatus.NormalExit ∨ status.exitCode ≠ 0) :
    (w.import_ env).1 = false ∧ (w.import_ env).2.processes.getLast? = some q ∧
    (status.exitStatus = ExitStatus.NormalExit → (w.import_ env).2.mError = status.stderrString) ∧
    (status.exitStatus ≠ ExitStatus.NormalExit → (w.import_ env).2.mError = status.errorString) := by
  revert hq
  unfold QgsGrassRasterImport.import_
  split
  · simp [Run.start, Run.setError]
  · next pipe hpipe =>
    split
    · simp [Run.start, Run.setError]
    · next p hprov =>
      split_ifs with hv
      · simp [Run.start, Run.setError]
      · intro hq
        refine importBands_induction env w pipe p
          (fun r => ∀ q ∈ r.processes, ∀ st, q.exit = some st →
            st.exitStatus = ExitStatus.NormalExit ∧ st.exitCode = 0)
          (fun res => ∀ q ∈ res.2.processes, ∀ st, q.exit = some st →
            (st.exitStatus ≠ ExitStatus.NormalExit ∨ st.exitCode ≠ 0) →
            res.1 = false ∧ res.2.processes.getLast? = some q ∧
            (st.exitStatus = ExitStatus.NormalExit → res.2.mError = st.stderrString) ∧
            (st.exitStatus ≠ ExitStatus.NormalExit → res.2.mError = st.errorString))
          ?_ ?_ ?_ _ _ (by simp [Run.start]) q hq status hexit hfail
        · intro r hr q hq st hst hf
          have := hr q hq st hst
          rcases hf with hf | hf
          · exact absurd this.1 hf
          · exact absurd this.2 hf
        · intro band r hr hok q hq st hst
          obtain ⟨_, log, s, hproc, hlog, hn, hc⟩ := importBand_true env w pipe p band r hok
          rw [hproc] at hq
          rcases List.mem_append.1 hq with h | h
          · exact hr q h st hst
          · have hql : q = log := by simpa using h
            subst hql
            rw [hlog] at hst
            cases hst
            exact ⟨hn, hc⟩
        · intro band r hr hok q hq st hst hf
          have hold : ∀ q ∈ r.processes, q.exit = some st → False := by
            intro q hq hst
            have := hr q hq st hst
            rcases hf with hf | hf
            · exact hf this.1
            · exact hf this.2
          rcases importBand_spec env w pipe p band r with ⟨_, hproc⟩ | ⟨log, hproc, _, _, hrest⟩
          · simp only at hq
            rw [hproc] at hq
            exact absurd hst (fun h => hold q hq h)
          · simp only at hq ⊢
            rw [hproc] at hq ⊢
            rcases List.mem_append.1 hq with h | h
            · exact absurd hst (fun h' => hold q h h')
            · have hql : q = log := by simpa using h
              subst hql
              rcases hrest with ⟨hnone, _⟩ | ⟨s, hs, _, _, h1, h2, _⟩
              · rw [hnone] at hst; cases hst
              · rw [hs] at hst
                cases hst
                refine ⟨trivial, by simp, ?_, ?_⟩
                · intro hn
                  rcases hf with hf | hf
                  · exact absurd hn hf
                  · exact (h2 hn hf).2
                · intro hn
                  exact (h1 hn).2


theorem vectorImport_genuine (env : Env) (w : QgsGrassVectorImport) :
    ∀ q ∈ (w.import_ env).2.processes, q.Genuine env w.mGrassObject := by
  intro q hq
  rcases vectorImport_spec env w with ⟨_, hnil⟩ | ⟨log, s, hproc, hgen, _⟩
  · rw [hnil] at hq; cases hq
  · rw [hproc] at hq
    have hql : q = log := by simpa using hq
    rw [hql]
    exact hgen

/-- C7. In every raster or vector `import()` run, a process whose exit the
worker read (the report the started module gives for the input it was sent)
with abnormal termination or a non-zero exit code makes `import()` return
false; `error()` is the captured standard-error text when the termination
was normal with a non-zero code and the process error string when it was
abnormal; and that process is the last one spawned in the run: no process is
spawned for a later band. -/
theorem process_failure_is_reported (env : Env) (w : Worker) (q : ProcessLog)
    (status : ProcessExit) (hq : q ∈ (w.import_ env).2.processes) (hexit : q.exit = some status)
    (hfail : status.exitStatus ≠ ExitStatus.NormalExit ∨ status.exitCode ≠ 0) :
    q.Genuine env w.mGrassObject ∧
    (w.import_ env).1 = false ∧ (w.import_ env).2.processes.getLast? = some q ∧
    (status.exitStatus = ExitStatus.NormalExit → w.errorAfter env = status.stderrString) ∧
    (status.exitStatus ≠ ExitStatus.NormalExit → w.errorAfter env = status.errorString) := by
  cases w with
  | raster w =>
    exact ⟨rasterImport_genuine env w q hq, rasterImport_exit env w q status hq hexit hfail⟩
  | vector w =>
    refine ⟨vectorImport_genuine env w q hq, ?_⟩
    simp only [Worker.import_, Worker.errorAfter] at hq ⊢
    rcases vectorImport_spec env w with ⟨_, hnil⟩ | ⟨log, s, hproc, _, _, hex, _, _, h1, h2, _⟩
    · rw [hnil] at hq; cases hq
    · rw [hproc] at hq ⊢
      have hql : q = log := by simpa using hq
      subst hql
      rw [hex] at hexit
      cases hexit
      refine ⟨?_, rfl, ?_, ?_⟩
      · rcases hfail with hf | hf
        · exact (h1 hf).1
        · by_cases hn : status.exitStatus = ExitStatus.NormalExit
          · exact (h2 hn hf).1
          · exact (h1 hn).1
      · intro hn
        rcases hfail with hf | hf
        · exact absurd hn hf
        · exact (h2 hn hf).2
      · intro hn; exact (h1 hn).2
  | copy w =>
    simp only [Worker.import_, QgsGrassCopy.import_] at hq
    split at hq <;> simp [Run.start, Run.setError] at hq


/-! ## Non-empty error text -/

theorem append_ne_empty (a b : String) (ha : a ≠ "") : a ++ b ≠ "" := by
  intro h
  apply ha
  have hd := congrArg String.data h
  simp only [String.data_append] at hd
  have : a.data = [] := (List.append_eq_nil.1 hd).1
  exact String.ext this

theorem notSupported_ne_empty (env : Env) (t : DataType) : notSupported env t ≠ "" := by
  unfold notSupported
  rw [String.append_assoc]
  exact append_ne_empty _ _ (by decide)

theorem importBand_false_mError (env : Env) (htexts : env.TextsNonEmpty)
    (w : QgsGrassRasterImport) (pipe : QgsRasterPipe) (p : QgsRasterDataProvider)
    (band : Nat) (r : Run) (hok : (importBand env w pipe p band r).1 = false) :
    (importBand env w pipe p band r).2.mError ≠ "" := by
  obtain ⟨hstart, hfinish, _⟩ := htexts
  revert hok
  unfold importBand
  split
  · intro _; exact notSupported_ne_empty env _
  · next t ht =>
    simp only []
    split
    · next what hw => intro _; exact hstart _ _ _ _ _ what hw
    · next process hp =>
      have hf := sendParts_frame env t (bandParts w pipe band) (writeRasterHeader env w t r)
      have hfin := fun input => hfinish _ _ _ _ _ process input hp
      split
      · next r1 heq =>
        rw [heq] at hf
        intro _
        have : r1.mError = "cannot vonvert data type" := hf.2.2 rfl
        simp only [Run.record, this]
        decide
      · next e r1 hne heq =>
        split_ifs with h1 h2
        · intro _; exact ((hfin r1.out).1 h1)
        · intro _
          have hn : (process.finish r1.out).exitStatus = ExitStatus.NormalExit := by
            by_contra h; exact h1 h
          exact ((hfin r1.out).2 hn h2)
        · intro h; cases h

theorem rasterImport_false_mError (env : Env) (htexts : env.TextsNonEmpty)
    (w : QgsGrassRasterImport) (hok : (w.import_ env).1 = false) :
    (w.import_ env).2.mError ≠ "" := by
  revert hok
  unfold QgsGrassRasterImport.import_
  split
  · intro _; simp only [Run.setError]; decide
  · next pipe hpipe =>
    split
    · intro _; simp only [Run.setError]; decide
    · next p hprov =>
      split_ifs with hv
      · intro _; simp only [Run.setError]; decide
      · exact importBands_induction env w pipe p (fun _ => True)
          (fun res => res.1 = false → res.2.mError ≠ "")
          (fun r _ h => by cases h)
          (fun _ _ _ _ => trivial)
          (fun band r _ hok _ => importBand_false_mError env htexts w pipe p band r hok)
          _ _ trivial

theorem vectorImport_false_mError (env : Env) (htexts : env.TextsNonEmpty)
    (w : QgsGrassVectorImport) (hok : (w.import_ env).1 = false) :
    (w.import_ env).2.mError ≠ "" := by
  obtain ⟨hstart, hfinish, _⟩ := htexts
  revert hok
  unfold QgsGrassVectorImport.import_
  split
  · intro _; simp only [Run.setError]; decide
  · next provider hprov =>
    split_ifs with hv
    · intro _; simp only [Run.setError]; decide
    · simp only []
      split
      · next what hw => intro _; exact hstart _ _ _ _ _ what hw
      · next process hp =>
        generalize w.sendAll env provider = r2
        have hfin := hfinish _ _ _ _ _ process r2.out hp
        split_ifs with h1 h2
        · intro _; exact hfin.1 h1
        · intro _
          have hn : (process.finish r2.out).exitStatus = ExitStatus.NormalExit := by
            by_contra h; exact h1 h
          exact hfin.2 hn h2
        · intro h; cases h

/-- C4 (amended). For every worker (raster, vector or copy) in an environment
whose launch and copy exception messages, process error strings (on abnormal
termination) and standard-error texts (on a non-zero exit code) are all
non-empty: after an `import()` call that returned false, `error()` is
non-empty. -/
theorem import_failure_sets_error (env : Env) (w : Worker) (htexts : env.TextsNonEmpty)
    (hfail : (w.import_ env).1 = false) : w.errorAfter env ≠ "" := by
  unfold Worker.errorAfter
  cases w with
  | raster w => exact rasterImport_false_mError env htexts w hfail
  | vector w => exact vectorImport_false_mError env htexts w hfail
  | copy w =>
    simp only [Worker.import_, QgsGrassCopy.import_] at hfail ⊢
    split
    · next what hw => exact htexts.2.2 _ _ what hw
    · next hn => rw [hn] at hfail; cases hfail


/-! ## The vector stream -/

/-- The items one pass writes for the features it sends. -/
theorem sendFeatures_not_canceled (env : Env) (ct : QgsGeometry → QgsGeometry)
    (doTransform : Bool) (fs1 fs2 : List QgsFeature) (r : Run)
    (hflag : ∀ i, r.checks ≤ i → i < r.checks + (fs1.filter (fun f => f.valid)).length →
      env.isCanceled i = false) :
    sendFeatures env ct doTransform (fs1 ++ fs2) r =
      sendFeatures env ct doTransform fs2
        { r with
          checks := r.checks + (fs1.filter (fun f => f.valid)).length
          out := r.out ++ (fs1.filter (fun f => f.valid)).flatMap
            (fun f => [Item.bool false, Item.feature (transformed ct doTransform f)]) } := by
  induction fs1 generalizing r with
  | nil => simp
  | cons f fs1 ih =>
    by_cases hv : f.valid = true
    · have h0 : env.isCanceled r.checks = false :=
        hflag r.checks (le_refl _) (by simp [List.filter_cons, hv])
      rw [List.cons_append, sendFeatures]
      simp only [hv, Bool.true_eq_false, if_false, Run.isCanceled, h0]
      rw [ih]
      · simp [List.filter_cons, hv, Run.write, Nat.add_assoc, Nat.add_comm 1]
      · intro i h1 h2
        simp only [Run.write] at h1 h2
        apply hflag i (by omega)
        simp only [List.filter_cons, hv, if_true, List.length_cons]
        omega
    · have hv' : f.valid = false := by simpa using hv
      rw [List.cons_append, sendFeatures]
      simp only [hv', if_true]
      rw [ih]
      · simp [List.filter_cons, hv']
      · intro i h1 h2
        apply hflag i h1
        simpa [List.filter_cons, hv'] using h2

theorem sendFeatures_canceled (env : Env) (ct : QgsGeometry → QgsGeometry)
    (doTransform : Bool) (f : QgsFeature) (iterator : List QgsFeature) (r : Run)
    (hv : f.valid = true) (hflag : env.isCanceled r.checks = true) :
    sendFeatures env ct doTransform (f :: iterator) r =
      (iterator, { r with checks := r.checks + 1, out := r.out ++ [Item.bool true] }) := by
  simp [sendFeatures, hv, Run.isCanceled, hflag, Run.write]


theorem sendFeatures_all (env : Env) (ct : QgsGeometry → QgsGeometry)
    (doTransform : Bool) (fs : List QgsFeature) (r : Run)
    (hflag : ∀ i, env.isCanceled i = false) :
    sendFeatures env ct doTransform fs r =
      ([], { r with
          checks := r.checks + (fs.filter (fun f => f.valid)).length
          out := r.out ++ (fs.filter (fun f => f.valid)).flatMap
            (fun f => [Item.bool false, Item.feature (transformed ct doTransform f)]) }) := by
  have h := sendFeatures_not_canceled env ct doTransform fs [] r (fun i _ _ => hflag i)
  rw [List.append_nil] at h
  rw [h, sendFeatures]

/-- What `QgsGrassVectorImport::import` leaves when the provider is valid and
the module starts: one process, fed with what `sendAll` wrote. -/
theorem vectorImport_started (env : Env) (w : QgsGrassVectorImport)
    (provider : QgsVectorDataProvider) (process : QProcess)
    (hprov : w.mProvider = some provider) (hvalid : provider.isValid = true)
    (hstart : env.startModule w.mGrassObject.gisdbase w.mGrassObject.location
      w.mGrassObject.mapset (env.qgisGrassModulePath ++ "/qgis.v.in")
      ["output=" ++ w.mGrassObject.name] = Except.ok process) :
    (w.import_ env).2.acquisitions = (w.sendAll env provider).acquisitions ∧
    (w.import_ env).2.processes.map (fun q => q.input) = [(w.sendAll env provider).out] := by
  have hp : (w.sendAll env provider).processes = [] := by
    unfold QgsGrassVectorImport.sendAll
    simp only []
    rw [(sendPasses_frame _ _ _ _ _ _ _).1]
    simp [Run.write, Run.start]
  unfold QgsGrassVectorImport.import_
  simp only [hprov, hvalid, hstart, Bool.true_eq_false, if_false]
  split_ifs <;> simp [Run.record, Run.setError, hp]

/-- C2. A vector import that reaches the transfer loop (provider valid,
module started) with the cancellation flag never set and every iterator
acquisition delivering the same features `fs` acquires the iterator exactly
twice when the geometry type is polygonal (`singleType( flatType( wkbType ) )
== WKBPolygon`) and exactly once otherwise, and writes after the header, for
each pass, `false` and the record of every valid feature in source order
(nothing for invalid ones), then one `false` and the default (invalid)
feature. -/
theorem vector_stream_without_cancel (env : Env) (w : QgsGrassVectorImport)
    (provider : QgsVectorDataProvider) (process : QProcess) (fs : List QgsFeature)
    (hprov : w.mProvider = some provider) (hvalid : provider.isValid = true)
    (hstart : env.startModule w.mGrassObject.gisdbase w.mGrassObject.location
      w.mGrassObject.mapset (env.qgisGrassModulePath ++ "/qgis.v.in")
      ["output=" ++ w.mGrassObject.name] = Except.ok process)
    (hflag : ∀ i, env.isCanceled i = false)
    (hsame : ∀ i, provider.getFeatures i = fs) :
    (w.import_ env).2.acquisitions = (if isPolygon env provider.geometryType then 2 else 1) ∧
    (w.import_ env).2.processes.map (fun q => q.input) =
      [[Item.int32 provider.geometryType, Item.fields provider.fields] ++
        (List.replicate (if isPolygon env provider.geometryType then 2 else 1)
          ((fs.filter (fun f => f.valid)).flatMap
              (fun f => [Item.bool false, Item.feature (w.sent env provider f)]) ++
            [Item.bool false, Item.feature QgsFeature.default])).flatten] := by
  obtain ⟨h1, h2⟩ := vectorImport_started env w provider process hprov hvalid hstart
  rw [h1, h2]
  unfold QgsGrassVectorImport.sendAll
  by_cases hpoly : isPolygon env provider.geometryType = true
  · simp [hpoly, List.range_succ, sendPasses, hsame, sendFeatures_all _ _ _ _ _ hflag,
      Run.write, Run.start, QgsGrassVectorImport.sent]
  · simp [hpoly, List.range_succ, sendPasses, hsame, sendFeatures_all _ _ _ _ _ hflag,
      Run.write, Run.start, QgsGrassVectorImport.sent]


/-- C9. A polygon vector import over valid features `fs` (at least two) in
which the cancellation flag reads false for the first `k` checks
(`1 ≤ k < fs.length`) and true ever after: pass 1 writes `false` and the
record of each of the first `k` features, then `true`, nothing for the
remaining features, then `false` and the default (invalid) feature; the
iterator is acquired a second time and pass 2 writes `true` before any
feature record, then `false` and the default feature. -/
theorem polygon_stream_canceled_after (env : Env) (w : QgsGrassVectorImport)
    (provider : QgsVectorDataProvider) (process : QProcess) (fs : List QgsFeature) (k : Nat)
    (hprov : w.mProvider = some provider) (hvalid : provider.isValid = true)
    (hstart : env.startModule w.mGrassObject.gisdbase w.mGrassObject.location
      w.mGrassObject.mapset (env.qgisGrassModulePath ++ "/qgis.v.in")
      ["output=" ++ w.mGrassObject.name] = Except.ok process)
    (hpoly : isPolygon env provider.geometryType = true)
    (hsame : ∀ i, provider.getFeatures i = fs)
    (hallvalid : ∀ f ∈ fs, f.valid = true)
    (hn : 2 ≤ fs.length) (_hk1 : 1 ≤ k) (hkn : k < fs.length)
    (hbefore : ∀ i, i < k → env.isCanceled i = false)
    (hafter : ∀ i, k ≤ i → env.isCanceled i = true) :
    (w.import_ env).2.acquisitions = 2 ∧
    (w.import_ env).2.processes.map (fun q => q.input) =
      [[Item.int32 provider.geometryType, Item.fields provider.fields] ++
        (fs.take k).flatMap (fun f => [Item.bool false, Item.feature (w.sent env provider f)]) ++
        [Item.bool true] ++ [Item.bool false, Item.feature QgsFeature.default] ++
        [Item.bool true] ++ [Item.bool false, Item.feature QgsFeature.default]] := by
  obtain ⟨h1, h2⟩ := vectorImport_started env w provider process hprov hvalid hstart
  rw [h1, h2]
  -- the features of pass 1: the first `k`, then the one whose check is canceled
  obtain ⟨f, rest, hdrop⟩ : ∃ f rest, fs.drop k = f :: rest := by
    cases hd : fs.drop k with
    | nil => simp at hd; omega
    | cons f rest => exact ⟨f, rest, rfl⟩
  have hsplit : fs = fs.take k ++ f :: rest := by rw [← hdrop, List.take_append_drop]
  have hfvalid : f.valid = true := hallvalid f (by rw [hsplit]; simp)
  have htake : (fs.take k).filter (fun f => f.valid) = fs.take k :=
    List.filter_eq_self.2 (fun a ha => hallvalid a (List.mem_of_mem_take ha))
  have hlen : (fs.take k).length = k := by simp; omega
  -- the first feature of pass 2
  obtain ⟨g, rest2, hfs⟩ : ∃ g rest2, fs = g :: rest2 := by
    cases hfs : fs with
    | nil => simp [hfs] at hn
    | cons g rest2 => exact ⟨g, rest2, rfl⟩
  have hgvalid : g.valid = true := hallvalid g (by rw [hfs]; simp)
  have hpass1 : ∀ r : Run, r.checks = 0 →
      sendFeatures env (w.coordinateTransform env provider) (w.doTransform env provider) fs r =
        (rest, { r with
          checks := k + 1
          out := r.out ++ (fs.take k).flatMap
            (fun f => [Item.bool false, Item.feature (w.sent env provider f)]) ++
            [Item.bool true] }) := by
    intro r hr
    conv_lhs => rw [hsplit]
    rw [sendFeatures_not_canceled, sendFeatures_canceled]
    · simp [htake, hlen, hr, QgsGrassVectorImport.sent]
    · exact hfvalid
    · simp only [htake, hlen, hr]
      exact hafter _ (by omega)
    · intro i _ hi
      rw [htake, hlen, hr] at hi
      exact hbefore i (by omega)
  have hpass2 : ∀ r : Run, k ≤ r.checks →
      sendFeatures env (w.coordinateTransform env provider) (w.doTransform env provider) fs r =
        (rest2, { r with checks := r.checks + 1, out := r.out ++ [Item.bool true] }) := by
    intro r hr
    conv_lhs => rw [hfs]
    exact sendFeatures_canceled env _ _ g rest2 r hgvalid (hafter _ hr)
  unfold QgsGrassVectorImport.sendAll
  simp only [hpoly, if_true, List.range_succ, List.range_zero, List.nil_append,
    List.singleton_append, sendPasses, hsame, gt_iff_lt, lt_self_iff_false, if_false,
    Nat.lt_one_iff, zero_lt_one]
  simp only [Run.write, Run.start, List.nil_append, List.cons_append, Nat.zero_add]
  rw [hpass1 { mError := w.mError, checks := 0, acquisitions := 1,
               out := [Item.int32 provider.geometryType, Item.fields provider.fields],
               processes := [] } rfl]
  simp only []
  rw [hpass2 _ (by simp)]
  simp


/-! ## Cancellation -/

theorem noPayloadAfterCancel_of_not_mem (l : List Item) (h : Item.bool true ∉ l) :
    NoPayloadAfterCancel l := by
  intro pre post hl
  exact absurd (by rw [hl]; simp) h

theorem noPayloadAfterCancel_concat (l : List Item) (x : Item) (hl : NoPayloadAfterCancel l)
    (hx : x.isPayload = false) : NoPayloadAfterCancel (l ++ [x]) := by
  intro pre post h y hy
  rcases List.append_eq_append_iff.1 h with ⟨a, _, ha⟩ | ⟨c, hc, hc2⟩
  · cases a with
    | nil =>
      simp only [List.nil_append, List.cons.injEq] at ha
      rw [← ha.2] at hy
      cases hy
    | cons b a =>
      simp only [List.cons_append, List.cons.injEq] at ha
      have := ha.2
      simp at this
  · cases c with
    | nil =>
      simp only [List.nil_append, List.cons.injEq] at hc2
      rw [hc2.2] at hy
      cases hy
    | cons b c =>
      simp only [List.cons_append, List.cons.injEq] at hc2
      obtain ⟨hb, hpost⟩ := hc2
      rw [hpost] at hy
      rcases List.mem_append.1 hy with h1 | h1
      · exact hl pre c (by rw [hc, hb]) y h1
      · have : y = x := by simpa using h1
        rw [this]; exact hx

theorem sticky_write_true (env : Env) (hmono : FlagMonotone env) (r : Run)
    (hr : r.Sticky env) (hc : env.isCanceled r.checks = true) :
    ((r.isCanceled env).2.write (Item.bool true)).Sticky env := by
  refine ⟨fun _ => ?_, ?_⟩
  · exact hmono r.checks (r.checks + 1) (Nat.le_succ _) hc
  · exact noPayloadAfterCancel_concat _ _ hr.2 rfl

theorem sticky_write_record (env : Env) (r : Run) (x : Item)
    (hr : r.Sticky env) (hc : env.isCanceled r.checks = false) (hx : x ≠ Item.bool true) :
    (((r.isCanceled env).2.write (Item.bool false)).write x).Sticky env := by
  have hnot : Item.bool true ∉ r.out := by
    intro h
    have := hr.1 h
    rw [hc] at this
    cases this
  have hnot2 : Item.bool true ∉ r.out ++ [Item.bool false] ++ [x] := by
    simp [hnot, Ne.symm hx]
  exact ⟨fun h => absurd h hnot2, noPayloadAfterCancel_of_not_mem _ hnot2⟩

theorem sticky_check (env : Env) (r : Run)
    (hr : r.Sticky env) (hc : env.isCanceled r.checks = false) :
    ((r.isCanceled env).2).Sticky env := by
  refine ⟨fun h => ?_, hr.2⟩
  have := hr.1 h
  rw [hc] at this
  cases this

theorem sticky_write_plain (env : Env) (r : Run) (x : Item)
    (hr : r.Sticky env) (hx : x ≠ Item.bool true) (hp : x.isPayload = false) :
    (r.write x).Sticky env := by
  refine ⟨fun h => ?_, noPayloadAfterCancel_concat _ _ hr.2 hp⟩
  apply hr.1
  simp only [Run.write, List.mem_append, List.mem_singleton] at h
  rcases h with h | h
  · exact h
  · exact absurd h.symm hx

theorem sendRows_sticky (env : Env) (hmono : FlagMonotone env) (block : QgsRasterBlock)
    (t : DataType) (cols : Int) (rows : List Nat) (r : Run) (hr : r.Sticky env) :
    (sendRows env block t cols rows r).2.Sticky env := by
  induction rows generalizing r with
  | nil => simpa [sendRows] using hr
  | cons row rows ih =>
    simp only [sendRows]
    split_ifs with h1 h2
    · exact hr
    · exact sticky_write_true env hmono r hr h2
    · exact ih _ (sticky_write_record env r _ hr (by simpa [Run.isCanceled] using h2) (by simp))

theorem sendParts_sticky (env : Env) (hmono : FlagMonotone env) (t : DataType)
    (parts : List RasterPart) (r : Run) (hr : r.Sticky env) :
    (sendParts env t parts r).2.Sticky env := by
  induction parts generalizing r with
  | nil => simpa [sendParts] using hr
  | cons part parts ih =>
    have hrows := sendRows_sticky env hmono part.block t part.iterCols
      (List.range part.iterRows.toNat) r hr
    simp only [sendParts]
    split
    · next r1 heq => rw [heq] at hrows; exact hrows
    · next e r1 hne heq =>
      rw [heq] at hrows
      split_ifs with h2
      · exact sticky_write_true env hmono r1 hrows h2
      · exact ih _ (sticky_check env r1 hrows (by simpa [Run.isCanceled] using h2))

theorem sendFeatures_sticky (env : Env) (hmono : FlagMonotone env)
    (ct : QgsGeometry → QgsGeometry) (doTransform : Bool)
    (iterator : List QgsFeature) (r : Run) (hr : r.Sticky env) :
    (sendFeatures env ct doTransform iterator r).2.Sticky env := by
  induction iterator generalizing r with
  | nil => simpa [sendFeatures] using hr
  | cons feature iterator ih =>
    simp only [sendFeatures]
    split_ifs with h1 h2
    · exact ih r hr
    · exact sticky_write_true env hmono r hr h2
    · exact ih _ (sticky_write_record env r _ hr (by simpa [Run.isCanceled] using h2) (by simp))

theorem sendPasses_sticky (env : Env) (hmono : FlagMonotone env)
    (provider : QgsVectorDataProvider) (ct : QgsGeometry → QgsGeometry) (doTransform : Bool)
    (passes : List Nat) (iterator : List QgsFeature) (r : Run) (hr : r.Sticky env) :
    (sendPasses env provider ct doTransform passes iterator r).Sticky env := by
  induction passes generalizing iterator r with
  | nil => simpa [sendPasses] using hr
  | cons i rest ih =>
    simp only [sendPasses]
    apply ih
    refine sticky_write_plain env _ (Item.feature QgsFeature.default) ?_ (by simp) rfl
    refine sticky_write_plain env _ (Item.bool false) ?_ (by simp) rfl
    apply sendFeatures_sticky env hmono
    split_ifs
    · exact hr
    · exact hr


theorem importBand_noPayloadAfterCancel (env : Env) (hmono : FlagMonotone env)
    (w : QgsGrassRasterImport) (pipe : QgsRasterPipe) (p : QgsRasterDataProvider)
    (band : Nat) (r : Run) (hr : ∀ q ∈ r.processes, NoPayloadAfterCancel q.input) :
    ∀ q ∈ (importBand env w pipe p band r).2.processes, NoPayloadAfterCancel q.input := by
  unfold importBand
  split
  · simpa [Run.setError] using hr
  · next t ht =>
    simp only []
    split
    · simpa [Run.setError] using hr
    · next process hp =>
      have hf := sendParts_frame env t (bandParts w pipe band) (writeRasterHeader env w t r)
      have hstart : (writeRasterHeader env w t r).Sticky env := by
        have hnot : Item.bool true ∉ (writeRasterHeader env w t r).out := by simp
        exact ⟨fun h => absurd h hnot, noPayloadAfterCancel_of_not_mem _ hnot⟩
      have hs := sendParts_sticky env hmono t (bandParts w pipe band) _ hstart
      have hall : ∀ (r1 : Run) (log : ProcessLog), r1.processes = r.processes →
          NoPayloadAfterCancel log.input →
          ∀ q ∈ (r1.record log).processes, NoPayloadAfterCancel q.input := by
        intro r1 log h1 h2 q hq
        simp only [Run.record, h1, List.mem_append, List.mem_singleton] at hq
        rcases hq with hq | hq
        · exact hr q hq
        · rw [hq]; exact h2
      split
      · next r1 heq =>
        rw [heq] at hf hs
        exact hall r1 _ hf.1 hs.2
      · next e r1 hne heq =>
        rw [heq] at hf hs
        have := hall r1
          { band := band, module := env.qgisGrassModulePath ++ "/qgis.r.in",
            arguments := ["output=" ++ bandName w p band], input := r1.out,
            exit := some (process.finish r1.out), writeChannelClosed := true,
            deleted := true } hf.1 hs.2
        split_ifs <;> simpa [Run.setError] using this

theorem rasterImport_noPayloadAfterCancel (env : Env) (hmono : FlagMonotone env)
    (w : QgsGrassRasterImport) :
    ∀ q ∈ (w.import_ env).2.processes, NoPayloadAfterCancel q.input := by
  unfold QgsGrassRasterImport.import_
  split
  · simp [Run.start, Run.setError]
  · next pipe hpipe =>
    split
    · simp [Run.start, Run.setError]
    · next p hprov =>
      split_ifs with hv
      · simp [Run.start, Run.setError]
      · exact importBands_induction env w pipe p
          (fun r => ∀ q ∈ r.processes, NoPayloadAfterCancel q.input)
          (fun res => ∀ q ∈ res.2.processes, NoPayloadAfterCancel q.input)
          (fun r hr => hr)
          (fun band r hr _ => importBand_noPayloadAfterCancel env hmono w pipe p band r hr)
          (fun band r hr _ => importBand_noPayloadAfterCancel env hmono w pipe p band r hr)
          _ _ (by simp [Run.start])

theorem vectorImport_noPayloadAfterCancel (env : Env) (hmono : FlagMonotone env)
    (w : QgsGrassVectorImport) :
    ∀ q ∈ (w.import_ env).2.processes, NoPayloadAfterCancel q.input := by
  unfold QgsGrassVectorImport.import_
  split
  · simp [Run.start, Run.setError]
  · next provider hprov =>
    split_ifs with hv
    · simp [Run.start, Run.setError]
    · simp only []
      split
      · simp [Run.start, Run.setError]
      · next process hp =>
        have hs : (w.sendAll env provider).Sticky env := by
          unfold QgsGrassVectorImport.sendAll
          apply sendPasses_sticky env hmono
          have hnot : Item.bool true ∉
              [Item.int32 provider.geometryType, Item.fields provider.fields] := by simp
          exact ⟨fun h => absurd h hnot, noPayloadAfterCancel_of_not_mem _ hnot⟩
        have hp0 : (w.sendAll env provider).processes = [] := by
          unfold QgsGrassVectorImport.sendAll
          simp only []
          rw [(sendPasses_frame _ _ _ _ _ _ _).1]
          simp [Run.write, Run.start]
        generalize w.sendAll env provider = r2 at hs hp0 ⊢
        split_ifs <;> simp [Run.record, Run.setError, hp0, hs.2]

/-- C1. In every import run in which the cancellation flag is monotone: in
the stream of every spawned process (each raster band, the vector module) no
payload record (row bytes, record of a source feature) follows a written
cancel flag `true`; and whenever the check before a row or before a valid
feature reads the flag set, the loop writes `true` in place of that record
and stops. -/
theorem cancel_stops_payload (env : Env) (w : Worker) (hmono : FlagMonotone env) :
    (∀ q ∈ (w.import_ env).2.processes, ∀ pre post,
      q.input = pre ++ Item.bool true :: post → ∀ x ∈ post, x.isPayload = false) ∧
    (∀ (block : QgsRasterBlock) (t : DataType) (cols : Int) (row : Nat) (rows : List Nat)
      (r : Run), block.convert t = true → env.isCanceled r.checks = true →
      sendRows env block t cols (row :: rows) r =
        (LoopExit.broke, { r with checks := r.checks + 1, out := r.out ++ [Item.bool true] })) ∧
    (∀ (ct : QgsGeometry → QgsGeometry) (doTransform : Bool) (f : QgsFeature)
      (iterator : List QgsFeature) (r : Run), f.valid = true →
      env.isCanceled r.checks = true →
      sendFeatures env ct doTransform (f :: iterator) r =
        (iterator, { r with checks := r.checks + 1, out := r.out ++ [Item.bool true] })) := by
  refine ⟨?_, ?_, ?_⟩
  · cases w with
    | raster w => exact rasterImport_noPayloadAfterCancel env hmono w
    | vector w => exact vectorImport_noPayloadAfterCancel env hmono w
    | copy w =>
      intro q hq
      simp only [Worker.import_, QgsGrassCopy.import_] at hq
      split at hq <;> simp [Run.start, Run.setError] at hq
  · intro block t cols row rows r hconv hc
    simp [sendRows, hconv, Run.isCanceled, hc, Run.write]
  · intro ct doTransform f iterator r hv hc
    exact sendFeatures_canceled env ct doTransform f iterator r hv hc


/-! ## Evaluations on the concrete inputs -/

/-- C4 (counterexample). A raster import of one Byte band whose converter
exits normally with code 1 and empty standard-error text returns false and
leaves `error()` empty. -/
theorem import_failure_with_empty_error :
    (Worker.import_ (sampleEnv (fun _ => false) (sampleExit 1 ""))
        (Worker.raster (sampleRaster 1 (fun _ => DataType.Byte) true))).1 = false ∧
    Worker.errorAfter (sampleEnv (fun _ => false) (sampleExit 1 ""))
        (Worker.raster (sampleRaster 1 (fun _ => DataType.Byte) true)) = "" := by
  constructor <;> rfl

/-- C4 (amended), on a raster import of one Byte band whose converter exits
with code 1 and standard-error text "bad input". -/
theorem import_failure_sets_error_witness :
    (sampleEnv (fun _ => false) (sampleExit 1 "bad input")).TextsNonEmpty ∧
    (Worker.import_ (sampleEnv (fun _ => false) (sampleExit 1 "bad input"))
        (Worker.raster (sampleRaster 1 (fun _ => DataType.Byte) true))).1 = false ∧
    Worker.errorAfter (sampleEnv (fun _ => false) (sampleExit 1 "bad input"))
        (Worker.raster (sampleRaster 1 (fun _ => DataType.Byte) true)) ≠ "" :=
  have htexts : (sampleEnv (fun _ => false) (sampleExit 1 "bad input")).TextsNonEmpty := by
    refine ⟨?_, ?_, ?_⟩
    · intro g l m module arguments what h
      simp [sampleEnv] at h
    · intro g l m module arguments process input h
      simp only [sampleEnv, Except.ok.injEq] at h
      subst h
      refine ⟨fun h => absurd rfl h, fun _ _ => ?_⟩
      show (sampleExit 1 "bad input").stderrString ≠ ""
      decide
    · intro src dest what h
      simp [sampleEnv] at h
  ⟨htexts, rfl, import_failure_sets_error _ _ htexts rfl⟩

/-- C5, on a vector import of three point features whose converter exits
with code 0. -/
theorem import_success_leaves_error_witness :
    (Worker.import_ (sampleEnv (fun _ => false) (sampleExit 0 ""))
        (Worker.vector (sampleVector 1))).1 = true ∧
    Worker.errorAfter (sampleEnv (fun _ => false) (sampleExit 0 ""))
        (Worker.vector (sampleVector 1)) = "" :=
  ⟨rfl, (import_success_leaves_error (sampleEnv (fun _ => false) (sampleExit 0 ""))
    (Worker.vector (sampleVector 1)) rfl).2 rfl⟩

/-- C8 (failing input). A raster import of one Byte band whose block cannot
be converted returns false from inside the row loop: the process spawned for
the band has neither had its write channel closed nor been deleted. -/
theorem conversion_failure_leaves_process_open :
    ((sampleRaster 1 (fun _ => DataType.Byte) false).import_
        (sampleEnv (fun _ => false) (sampleExit 0 ""))).1 = false ∧
    ((sampleRaster 1 (fun _ => DataType.Byte) false).import_
        (sampleEnv (fun _ => false) (sampleExit 0 ""))).2.mError = "cannot vonvert data type" ∧
    ((sampleRaster 1 (fun _ => DataType.Byte) false).import_
        (sampleEnv (fun _ => false) (sampleExit 0 ""))).2.processes.map
          (fun q => (q.arguments, q.writeChannelClosed, q.deleted)) =
      [(["output=dem"], false, false)] := by
  refine ⟨?_, ?_, ?_⟩ <;> rfl


/-- C1, on a polygon vector import whose cancellation flag is set from the
second read on: nothing after a written `true` is payload. -/
theorem cancel_stops_payload_witness :
    FlagMonotone (sampleEnv (fun i => decide (1 ≤ i)) (sampleExit 0 "")) ∧
    (∀ q ∈ (Worker.import_ (sampleEnv (fun i => decide (1 ≤ i)) (sampleExit 0 ""))
        (Worker.vector (sampleVector 3))).2.processes, ∀ pre post,
      q.input = pre ++ Item.bool true :: post → ∀ x ∈ post, x.isPayload = false) :=
  have hmono : FlagMonotone (sampleEnv (fun i => decide (1 ≤ i)) (sampleExit 0 "")) := by
    intro i j hij hi
    simp only [sampleEnv, decide_eq_true_eq] at hi ⊢
    omega
  ⟨hmono, (cancel_stops_payload _ (Worker.vector (sampleVector 3)) hmono).1⟩

/-- C2, on a polygon source of three features: two acquisitions, and both
passes written in full. -/
theorem vector_stream_without_cancel_witness :
    isPolygon (sampleEnv (fun _ => false) (sampleExit 0 "")) 3 = true ∧
    ((sampleVector 3).import_ (sampleEnv (fun _ => false) (sampleExit 0 ""))).2.acquisitions = 2 ∧
    ((sampleVector 3).import_ (sampleEnv (fun _ => false) (sampleExit 0 ""))).2.processes.map
        (fun q => q.input) =
      [[Item.int32 3, Item.fields [("id", "int")],
        Item.bool false, Item.feature { valid := true, geometry := some [(101, 101)], attributes := ["a"] },
        Item.bool false, Item.feature { valid := true, geometry := some [(102, 102)], attributes := ["a"] },
        Item.bool false, Item.feature { valid := true, geometry := some [(103, 103)], attributes := ["a"] },
        Item.bool false, Item.feature QgsFeature.default,
        Item.bool false, Item.feature { valid := true, geometry := some [(101, 101)], attributes := ["a"] },
        Item.bool false, Item.feature { valid := true, geometry := some [(102, 102)], attributes := ["a"] },
        Item.bool false, Item.feature { valid := true, geometry := some [(103, 103)], attributes := ["a"] },
        Item.bool false, Item.feature QgsFeature.default]] :=
  ⟨rfl,
   (vector_stream_without_cancel (sampleEnv (fun _ => false) (sampleExit 0 "")) (sampleVector 3)
      (sampleVectorProvider 3) { finish := fun _ => sampleExit 0 "" }
      [sampleFeature 1, sampleFeature 2, sampleFeature 3] rfl rfl rfl (fun _ => rfl)
      (fun _ => rfl)).1,
   (vector_stream_without_cancel (sampleEnv (fun _ => false) (sampleExit 0 "")) (sampleVector 3)
      (sampleVectorProvider 3) { finish := fun _ => sampleExit 0 "" }
      [sampleFeature 1, sampleFeature 2, sampleFeature 3] rfl rfl rfl (fun _ => rfl)
      (fun _ => rfl)).2⟩

/-- C3, on a provider with two bands: `names()` is `dem_1`, `dem_2`. -/
theorem raster_names_by_band_count_witness :
    (sampleRaster 2 (fun _ => DataType.Byte) true).names.length = 2 ∧
    (sampleRaster 2 (fun _ => DataType.Byte) true).names[1]? = some "dem_2" :=
  ⟨((raster_names_by_band_count (sampleEnv (fun _ => false) (sampleExit 0 ""))
      (sampleRaster 2 (fun _ => DataType.Byte) true) (samplePipe 2 (fun _ => DataType.Byte) true)
      (sampleRasterProvider 2 (fun _ => DataType.Byte)) 2 rfl rfl rfl (by decide)).1
      (by decide)).1,
   ((raster_names_by_band_count (sampleEnv (fun _ => false) (sampleExit 0 ""))
      (sampleRaster 2 (fun _ => DataType.Byte) true) (samplePipe 2 (fun _ => DataType.Byte) true)
      (sampleRasterProvider 2 (fun _ => DataType.Byte)) 2 rfl rfl rfl (by decide)).1
      (by decide)).2 1 (by decide)⟩

/-- C6, on a provider whose second of two bands is CInt16: `import()` returns
false and only band 1 has a process. -/
theorem raster_type_mapping_and_rejection_witness :
    ((sampleRaster 2 (fun band => if band = 2 then DataType.CInt16 else DataType.Byte)
        true).import_ (sampleEnv (fun _ => false) (sampleExit 0 ""))).1 = false ∧
    (∀ q ∈ ((sampleRaster 2 (fun band => if band = 2 then DataType.CInt16 else DataType.Byte)
        true).import_ (sampleEnv (fun _ => false) (sampleExit 0 ""))).2.processes, q.band < 2) :=
  ((raster_type_mapping_and_rejection (sampleEnv (fun _ => false) (sampleExit 0 ""))
      (sampleRaster 2 (fun band => if band = 2 then DataType.CInt16 else DataType.Byte) true)
      (samplePipe 2 (fun band => if band = 2 then DataType.CInt16 else DataType.Byte) true)
      (sampleRasterProvider 2 (fun band => if band = 2 then DataType.CInt16 else DataType.Byte))
      2 rfl rfl (by decide) (by decide)).2.2.2.2 (by decide)).2.2

/-- C7, on a raster import of one Byte band whose converter exits with code 1
and standard-error text "bad input": `import()` returns false and `error()`
is "bad input". -/
theorem process_failure_is_reported_witness :
    (Worker.import_ (sampleEnv (fun _ => false) (sampleExit 1 "bad input"))
        (Worker.raster (sampleRaster 1 (fun _ => DataType.Byte) true))).1 = false ∧
    Worker.errorAfter (sampleEnv (fun _ => false) (sampleExit 1 "bad input"))
        (Worker.raster (sampleRaster 1 (fun _ => DataType.Byte) true)) = "bad input" :=
  ⟨(process_failure_is_reported (sampleEnv (fun _ => false) (sampleExit 1 "bad input"))
      (Worker.raster (sampleRaster 1 (fun _ => DataType.Byte) true))
      { band := 1, module := "/usr/lib/qgis/grass/modules/qgis.r.in",
        arguments := ["output=dem"],
        input := [Item.extent { xMinimum := 0, yMinimum := 0, xMaximum := 3, yMaximum := 2 },
          Item.int32 3, Item.int32 2, Item.int32 5,
          Item.bool false, Item.bytes [0, 0, 0, 0, 0, 0, 0, 0, 0, 0, 0, 0],
          Item.bool false, Item.bytes [1, 1, 1, 1, 1, 1, 1, 1, 1, 1, 1, 1]],
        exit := some (sampleExit 1 "bad input"), writeChannelClosed := true, deleted := true }
      (sampleExit 1 "bad input") (by decide) rfl (Or.inr (by decide))).2.1,
   (process_failure_is_reported (sampleEnv (fun _ => false) (sampleExit 1 "bad input"))
      (Worker.raster (sampleRaster 1 (fun _ => DataType.Byte) true))
      { band := 1, module := "/usr/lib/qgis/grass/modules/qgis.r.in",
        arguments := ["output=dem"],
        input := [Item.extent { xMinimum := 0, yMinimum := 0, xMaximum := 3, yMaximum := 2 },
          Item.int32 3, Item.int32 2, Item.int32 5,
          Item.bool false, Item.bytes [0, 0, 0, 0, 0, 0, 0, 0, 0, 0, 0, 0],
          Item.bool false, Item.bytes [1, 1, 1, 1, 1, 1, 1, 1, 1, 1, 1, 1]],
        exit := some (sampleExit 1 "bad input"), writeChannelClosed := true, deleted := true }
      (sampleExit 1 "bad input") (by decide) rfl (Or.inr (by decide))).2.2.2.1 rfl⟩

/-- C9, on the scenario of three polygon features with the flag set after the
first: feature 1, `true`, end of pass 1, `true`, end of pass 2. -/
theorem polygon_stream_canceled_after_witness :
    ((sampleVector 3).import_ (sampleEnv (fun i => decide (1 ≤ i)) (sampleExit 0 ""))).2.acquisitions
      = 2 ∧
    ((sampleVector 3).import_ (sampleEnv (fun i => decide (1 ≤ i)) (sampleExit 0 ""))).2.processes.map
        (fun q => q.input) =
      [[Item.int32 3, Item.fields [("id", "int")],
        Item.bool false, Item.feature { valid := true, geometry := some [(101, 101)], attributes := ["a"] },
        Item.bool true,
        Item.bool false, Item.feature QgsFeature.default,
        Item.bool true,
        Item.bool false, Item.feature QgsFeature.default]] :=
  polygon_stream_canceled_after (sampleEnv (fun i => decide (1 ≤ i)) (sampleExit 0 ""))
    (sampleVector 3) (sampleVectorProvider 3) { finish := fun _ => sampleExit 0 "" }
    [sampleFeature 1, sampleFeature 2, sampleFeature 3] 1 rfl rfl rfl rfl (fun _ => rfl)
    (by decide) (by decide) (by decide) (by decide)
    (fun i hi => by
      have h0 : i = 0 := by omega
      subst h0
      rfl)
    (fun i hi => by simpa [sampleEnv] using hi)

/-- C10, on a raster import of two Byte bands that succeeds: the processes
were given `output=dem_1` and `output=dem_2`, the names `names()` lists. -/
theorem raster_spawned_outputs_lead_names_witness :
    ((sampleRaster 2 (fun _ => DataType.Byte) true).import_
        (sampleEnv (fun _ => false) (sampleExit 0 ""))).2.processes.map (fun q => q.arguments) =
      (sampleRaster 2 (fun _ => DataType.Byte) true).names.map (fun name => ["output=" ++ name]) :=
  (raster_spawned_outputs_lead_names (sampleEnv (fun _ => false) (sampleExit 0 ""))
    (sampleRaster 2 (fun _ => DataType.Byte) true) (samplePipe 2 (fun _ => DataType.Byte) true)
    (sampleRasterProvider 2 (fun _ => DataType.Byte)) rfl rfl (by decide)).2.1 rfl


end QgsGrassImport
